import Mathlib

/-!
# Verification of the document-ingestion pipeline

Shallow embedding of the asynchronous document-ingestion pipeline of a
multi-tenant SaaS backend (`app/tasks/document_tasks.py`,
`app/services/vector_store.py`, `app/routers/document.py`), together with
theorems settling the frozen claims about it.

Python strings are modelled as `List Char`, Python `int` as `Int`/`Nat`
(with Python slice/`rfind` index conversion made explicit), dictionaries
passed between the chained tasks as structures, and the external
collaborators (filesystem, database session, embedding backend, vector
index, progress store) as explicit state or oracle parameters.
-/

set_option maxRecDepth 10000

deriving instance DecidableEq for Except

namespace Ingest

/-! ## Python string primitives -/

/-- Python whitespace as removed by `str.strip()`. -/
def pyIsSpace (c : Char) : Bool :=
  c = ' ' || c = '\t' || c = '\n' || c = '\r' || c = '\x0b' || c = '\x0c'

/-- `str.strip()`: remove leading and trailing whitespace. -/
def pyStrip (l : List Char) : List Char :=
  ((l.dropWhile pyIsSpace).reverse.dropWhile pyIsSpace).reverse

/-- Python `s.startswith(pre)`: character-wise prefix test. -/
def pyStartswith (pre s : String) : Bool := pre.data.isPrefixOf s.data

/-- Python `s.endswith(suf)`: character-wise suffix test. -/
def pyEndswith (suf s : String) : Bool := suf.data.isSuffixOf s.data

/-- Convert a Python slice index (possibly negative, possibly past the end)
to an absolute position in a string of length `len`, following CPython's
`PySlice` semantics: negative indices count from the end and are clamped at
0, positive ones are clamped at `len`. -/
def pySliceIdx (len : Nat) (i : Int) : Nat :=
  if i < 0 then (len + i).toNat else min i.toNat len

/-- Python `text[s:e]`. -/
def pySlice (t : List Char) (s e : Int) : List Char :=
  (t.take (pySliceIdx t.length e)).drop (pySliceIdx t.length s)

/-- Greatest `i < n` with `p i` (backward search), `none` if there is none. -/
def greatestB (p : Nat → Bool) : Nat → Option Nat
  | 0 => none
  | n + 1 => if p n then some n else greatestB p n

/-- Python `text.rfind(c, s, e)` for a single character `c`:
highest index `i` with `s' ≤ i < e'` and `text[i] = c` (after slice-index
conversion of `s`, `e`), or `-1`. -/
def pyRfind1 (t : List Char) (c : Char) (s e : Int) : Int :=
  let s' := pySliceIdx t.length s
  let e' := pySliceIdx t.length e
  match greatestB (fun i => decide (s' ≤ i) && (t.get? i == some c)) e' with
  | some i => (i : Int)
  | none => -1

/-- Python `text.rfind(ab, s, e)` for a two-character substring `ab`:
highest index `i` with `s' ≤ i`, `i + 2 ≤ e'`, `text[i] = a`,
`text[i+1] = b`, or `-1`. -/
def pyRfind2 (t : List Char) (a b : Char) (s e : Int) : Int :=
  let s' := pySliceIdx t.length s
  let e' := pySliceIdx t.length e
  match greatestB
      (fun i => decide (s' ≤ i) && decide (i + 2 ≤ e') &&
        (t.get? i == some a) && (t.get? (i + 1) == some b)) e' with
  | some i => (i : Int)
  | none => -1

/-! ## Boundary-aware chunker (`chunk_with_smart_boundaries`) -/

/-- The source's `int(chunk_size * 0.7)`.  The Python expression computes in
binary64; for the sizes relevant here (in particular the default 500, where
`500 * 0.7` rounds to exactly `350.0`) this coincides with `⌊7·cs/10⌋`. -/
def smartThreshold (chunk_size : Nat) : Nat := 7 * chunk_size / 10

/-- One chunk produced by `chunk_with_smart_boundaries`: the dict
`{"text": …, "char_start": …, "char_end": …}`.  `char_start`/`char_end` are
Python ints and may be negative resp. exceed the text length, exactly as in
the source. -/
structure RawChunk where
  text : List Char
  char_start : Int
  char_end : Int
  deriving Repr, DecidableEq

/-- `max(text.rfind('. ', start, end), text.rfind('? ', start, end),
text.rfind('! ', start, end))`. -/
def sentenceEnd (text : List Char) (s e : Int) : Int :=
  max (max (pyRfind2 text '.' ' ' s e) (pyRfind2 text '?' ' ' s e))
    (pyRfind2 text '!' ' ' s e)

/-- The cut position chosen for the window starting at `start`
(the body of the `while` loop of `chunk_with_smart_boundaries` that
computes `end`). -/
def computeEnd (text : List Char) (chunk_size : Nat) (start : Int) : Int :=
  if start + chunk_size < (text.length : Int) then
    if sentenceEnd text start (start + chunk_size) > start + (smartThreshold chunk_size : Int) then
      sentenceEnd text start (start + chunk_size) + 1
    else if pyRfind1 text ' ' start (start + chunk_size) > start then
      pyRfind1 text ' ' start (start + chunk_size)
    else start + chunk_size
  else start + chunk_size

/-- One iteration of the `while` loop of `chunk_with_smart_boundaries`:
returns the chunk kept by this window (`none` when the stripped text has
length ≤ 50 and the chunk is discarded) and the next value of `start`
(`end - overlap`). -/
def chunkStep (text : List Char) (chunk_size overlap : Nat) (start : Int) :
    Option RawChunk × Int :=
  (if (pyStrip (pySlice text start (computeEnd text chunk_size start))).length > 50 then
      some ⟨pyStrip (pySlice text start (computeEnd text chunk_size start)), start,
        computeEnd text chunk_size start⟩
    else none,
   computeEnd text chunk_size start - overlap)

/-- The `while start < text_length` loop, with one `Option RawChunk` entry
per iteration (`some` = kept, `none` = discarded).  `fuel` bounds the number
of iterations; the result is `none` when the loop has not exited within
`fuel` iterations (the source loop has no such bound and can run forever). -/
def chunkTraceF (text : List Char) (chunk_size overlap : Nat) :
    Int → Nat → Option (List (Option RawChunk))
  | start, 0 => if start < (text.length : Int) then none else some []
  | start, fuel + 1 =>
    if start < (text.length : Int) then
      match chunkTraceF text chunk_size overlap (chunkStep text chunk_size overlap start).2 fuel with
      | none => none
      | some tr => some ((chunkStep text chunk_size overlap start).1 :: tr)
    else some []

/-- `chunk_with_smart_boundaries(text, chunk_size, overlap)`
(`app/tasks/document_tasks.py`): the list of kept chunks, or `none` when
the loop does not exit within `fuel` iterations. -/
def chunk_with_smart_boundaries (text : List Char) (chunk_size overlap fuel : Nat) :
    Option (List RawChunk) :=
  (chunkTraceF text chunk_size overlap 0 fuel).map List.reduceOption

/-! ## Claim-side description of the cut rule (for C8)

These definitions follow the words of the specification, not the source:
search backward from the window's raw end for the nearest sentence
terminator / plain space, and cut accordingly.  They are compared with
`computeEnd` (the source's computation). -/

/-- A sentence terminator `". "`, `"? "` or `"! "` starts at position `i`. -/
def isTerminatorAt (text : List Char) (i : Nat) : Bool :=
  (text.get? i == some '.' || text.get? i == some '?' || text.get? i == some '!') &&
    (text.get? (i + 1) == some ' ')

/-- The nearest sentence terminator found searching backward from `rawEnd`,
lying fully inside the window `[s, rawEnd)`. -/
def lastTerminator (text : List Char) (s rawEnd : Nat) : Option Nat :=
  greatestB (fun i => decide (s ≤ i) && decide (i + 2 ≤ rawEnd) && isTerminatorAt text i) rawEnd

/-- The nearest plain space found searching backward from `rawEnd`, at a
position `≥ s` (the claim's "nearest plain space before the window end"). -/
def lastSpaceWithin (text : List Char) (s rawEnd : Nat) : Option Nat :=
  greatestB (fun i => decide (s ≤ i) && (text.get? i == some ' ')) rawEnd

/-- The nearest plain space found searching backward from `rawEnd`, at a
position strictly after the window start. -/
def lastSpaceStrictlyAfter (text : List Char) (s rawEnd : Nat) : Option Nat :=
  greatestB (fun i => decide (s < i) && (text.get? i == some ' ')) rawEnd

/-- Fall back to the found space, else to the raw end. -/
def specCutSpace (space : Option Nat) (rawEnd : Nat) : Nat :=
  match space with
  | some j => j
  | none => rawEnd

/-- Cut after the terminator when one was found within the last 30% of the
window (past `thr`), else at the fallback space, else at the raw end. -/
def specCutTerm (term : Option Nat) (thr : Nat) (space : Option Nat) (rawEnd : Nat) : Nat :=
  match term with
  | some i => if thr < i then i + 1 else specCutSpace space rawEnd
  | none => specCutSpace space rawEnd

/-- The claim's cut rule, word for word: if the nearest sentence terminator
lies within the last 30% of the window, cut right after it; otherwise cut
at the nearest plain space before the window end; if neither exists, cut at
the raw `chunk_size` boundary. -/
def specCutClaim (text : List Char) (chunk_size start : Nat) : Nat :=
  if start + chunk_size < text.length then
    specCutTerm (lastTerminator text start (start + chunk_size))
      (start + smartThreshold chunk_size)
      (lastSpaceWithin text start (start + chunk_size)) (start + chunk_size)
  else start + chunk_size

/-- The amended cut rule: as `specCutClaim`, but the fallback space must lie
strictly after the window start (a space at the window start itself does not
count, matching `space > start` in the source). -/
def specCut (text : List Char) (chunk_size start : Nat) : Nat :=
  if start + chunk_size < text.length then
    specCutTerm (lastTerminator text start (start + chunk_size))
      (start + smartThreshold chunk_size)
      (lastSpaceStrictlyAfter text start (start + chunk_size)) (start + chunk_size)
  else start + chunk_size

/-! ## Pipeline data model -/

/-- `settings.UPLOAD_DIR` (`app/config.py`). -/
def UPLOAD_DIR : String := "./uploads"

/-- One record of the ephemeral progress store:
`{"percent": …, "step": …, "error": …}`. -/
structure ProgressEntry where
  percent : Nat
  step : String
  error : Option String
  deriving Repr, DecidableEq

/-- A `Document` row (`app/models/models.py`), restricted to the fields the
pipeline reads or writes. -/
structure Document where
  doc_id : String
  tenant_id : String
  file_path : String
  processing_status : String
  total_chunks : Option Nat
  error_message : Option String
  title : String
  filename : String
  author : Option String
  tags : List String
  document_type : Option String
  created_at : Option String
  uploaded_by : Option String
  deriving Repr, DecidableEq

/-- The per-page dict produced by `extract_text_with_ocr_fallback`. -/
structure PageData where
  page_number : Nat
  text : List Char
  method : String
  deriving Repr, DecidableEq

/-- One page of a PDF as seen by the extractor's collaborators:
`extractedText` is what `page.extract_text()` returns (`[]` standing for
both `None` and the empty string, which the source treats alike), and
`ocrText` is the outcome of the OCR attempt (`none` when the OCR libraries
are unavailable, raise, or rasterization yields no image). -/
structure PyPage where
  extractedText : List Char
  ocrText : Option (List Char)
  deriving Repr, DecidableEq

/-- The chunk dict built by `chunk_text_task`. -/
structure ChunkRecord where
  text : List Char
  page_number : Nat
  chunk_index_in_page : Nat
  total_chunks_in_page : Nat
  global_chunk_index : Nat
  extraction_method : String
  char_start : Int
  char_end : Int
  deriving Repr, DecidableEq

/-- An embedding vector.  Only its length matters to the pipeline, so the
coordinate type is modelled as `Int`. -/
abbrev Vec := List Int

/-- The payload dict built in `upsert_vectors_task`:
`{**chunk, **document_metadata}` (the keys of the two groups are disjoint). -/
structure ChunkMeta where
  chunk : ChunkRecord
  title : String
  filename : String
  author : Option String
  tags : List String
  document_type : Option String
  upload_date : Option String
  uploaded_by : String
  deriving Repr, DecidableEq

/-- The payload stored with a point:
`{"tenant_id": …, "document_id": …, **chunk_data["payload"]}`. -/
structure PointPayload where
  tenant_id : String
  document_id : String
  meta : ChunkMeta
  deriving Repr, DecidableEq

/-- A Qdrant point.  `uuid.uuid4()` point ids are modelled as fresh
numbers drawn from a counter in the pipeline state: each call yields an id
never produced before. -/
structure QPoint where
  id : Nat
  vector : Vec
  payload : PointPayload
  deriving Repr, DecidableEq

/-- An operation issued against the vector index service. -/
inductive QdrantOp where
  | createCollection (name : String) (vector_size : Nat)
  | upsertBatch (name : String) (points : List QPoint)
  | deleteByDocument (name : String) (document_id : String)
  deriving Repr, DecidableEq

/-- The state threaded through the pipeline: document table, append-only
log of progress-store writes, trace of vector-index operations, existing
collections, file paths whose bytes were read, and fresh-id counters for
point ids and task ids. -/
structure PipeState where
  db : List Document
  progressLog : List (String × ProgressEntry)
  vectorOps : List QdrantOp
  collections : List String
  reads : List String
  nextPointId : Nat
  nextTaskId : Nat
  deriving Repr, DecidableEq

/-- Oracle for the fallible database session used by the tasks: whether the
query resp. the commit raises. -/
structure SessionOracle where
  queryFails : Bool
  commitFails : Bool
  deriving Repr, DecidableEq

/-- A session in which queries and commits succeed (normal operation). -/
def reliableSession : SessionOracle := ⟨false, false⟩

/-- Exceptions raised by the stage bodies. -/
inductive PyErr where
  | permissionError (msg : String)
  | fileNotFoundError (msg : String)
  | valueError (msg : String)
  | clientError (msg : String)
  | dbError (msg : String)
  | softTimeLimitExceeded
  deriving Repr, DecidableEq

/-- `str(e)` for a stage exception. -/
def errMsg : PyErr → String
  | .permissionError m => m
  | .fileNotFoundError m => m
  | .valueError m => m
  | .clientError m => m
  | .dbError m => m
  | .softTimeLimitExceeded => "SoftTimeLimitExceeded()"

/-! ## Shared helpers (`document_tasks.py`) -/

/-- `update_progress`: one `setex` write of
`{"percent": …, "step": …, "error": …}` under `progress:<doc_id>`, appended
to the write log.  The store itself is modelled as reliable; the source
swallows store errors, which no claim depends on. -/
def update_progress (document_id : String) (percent : Nat) (step : String)
    (error : Option String) (st : PipeState) : PipeState :=
  { st with progressLog := st.progressLog ++ [(document_id, ⟨percent, step, error⟩)] }

/-- Record that the bytes of `path` were read (`PdfReader(file_path)` /
`convert_from_path(file_path, …)`). -/
def recordRead (path : String) (st : PipeState) : PipeState :=
  { st with reads := st.reads ++ [path] }

/-- Mutate the first row matching `doc_id`
(`db.query(Document).filter(Document.doc_id == document_id).first()`). -/
def dbSetFirst : List Document → String → (Document → Document) → List Document
  | [], _, _ => []
  | d :: rest, docId, f =>
    if d.doc_id == docId then f d :: rest else d :: dbSetFirst rest docId f

/-- `if total_chunks is not None: doc.total_chunks = total_chunks`. -/
def applyTotalChunks (total_chunks : Option Nat) (d : Document) : Document :=
  match total_chunks with
  | some n => { d with total_chunks := some n }
  | none => d

/-- `if error_message: doc.error_message = error_message` — Python
truthiness: skipped for `None` and for the empty string. -/
def applyErrorMessage (error_message : Option String) (d : Document) : Document :=
  match error_message with
  | some m => if m ≠ "" then { d with error_message := some m } else d
  | none => d

/-- The field mutations of `update_document_status`:
`processing_status` is always set, `total_chunks` when it `is not None`,
`error_message` only when truthy (non-`None` and non-empty). -/
def applyStatus (status : String) (total_chunks : Option Nat)
    (error_message : Option String) (d : Document) : Document :=
  applyErrorMessage error_message
    (applyTotalChunks total_chunks { d with processing_status := status })

/-- The `try` body of `update_document_status`: query the row, apply the
mutations, commit.  Query and commit can raise, controlled by the session
oracle. -/
def update_document_status_try (s : SessionOracle) (document_id status : String)
    (total_chunks : Option Nat) (error_message : Option String)
    (db : List Document) : Except String (List Document) :=
  if s.queryFails then .error "database query failed"
  else match db.find? (fun d => d.doc_id == document_id) with
    | some _ =>
      if s.commitFails then .error "database commit failed"
      else .ok (dbSetFirst db document_id (applyStatus status total_chunks error_message))
    | none => .ok db

/-- `update_document_status`: the `try` body wrapped in the source's
catch-all `except` clause — on any session error the transaction is rolled
back (the table is left unchanged) and control returns normally; no
exception ever escapes, which the total return type embeds. -/
def update_document_status (s : SessionOracle) (document_id status : String)
    (total_chunks : Option Nat) (error_message : Option String)
    (st : PipeState) : PipeState :=
  match update_document_status_try s document_id status total_chunks error_message st.db with
  | .ok db' => { st with db := db' }
  | .error _ => st

/-- The shared `except Exception` handler of the four stage tasks:
`update_progress(doc, 0, "failed", error=str(e))` then
`update_document_status(doc, "failed", error_message=str(e))`, then
re-raise. -/
def taskFailHandler (s : SessionOracle) (document_id : String) (e : PyErr)
    (st : PipeState) : PipeState :=
  update_document_status s document_id "failed" none (some (errMsg e))
    (update_progress document_id 0 "failed" (some (errMsg e)) st)

/-- The `try`/`except` skeleton of a stage task: run the body; on an
exception run the failure handler and re-raise. -/
def tryStage {α : Type} (s : SessionOracle) (document_id : String)
    (body : PipeState → Except PyErr α × PipeState) (st : PipeState) :
    Except PyErr α × PipeState :=
  match body st with
  | (.ok a, st') => (.ok a, st')
  | (.error e, st') => (.error e, taskFailHandler s document_id e st')

/-! ## Stage 1: text extraction -/

/-- `os.path.join` for the paths arising here (the second component
absolute replaces the first, as in CPython on POSIX). -/
def pyJoin (a b : String) : String :=
  if pyStartswith "/" b then b
  else if a = "" then b
  else if pyEndswith "/" a then a ++ b
  else a ++ "/" ++ b

/-- `extract_text_with_ocr_fallback(file_path, page_num, page_obj)`:
embedded text if it strips to more than 50 characters, else an OCR attempt
(accepted above 10 stripped characters), else `method="failed"` with no
text.  The OCR attempt reads the file's bytes again. -/
def extract_text_with_ocr_fallback (file_path : String) (page_num : Nat)
    (page : PyPage) (st : PipeState) : PageData × PipeState :=
  if page.extractedText ≠ [] ∧ (pyStrip page.extractedText).length > 50 then
    (⟨page_num, page.extractedText, "text_extraction"⟩, st)
  else
    match page.ocrText with
    | some o =>
      let st := recordRead file_path st
      if (pyStrip o).length > 10 then (⟨page_num, o, "ocr"⟩, st)
      else (⟨page_num, [], "failed"⟩, st)
    | none => (⟨page_num, [], "failed"⟩, st)

/-- The page loop of `extract_pdf_text_task`: extract each page, keep pages
whose text strips to something non-empty, report per-page progress
`10 + int((i / total_pages) * 15)` (modelled as `10 + i*15/total`, which
the binary64 source expression equals for the values arising here). -/
def extractPagesLoop (file_path document_id : String) (total : Nat) :
    List PyPage → Nat → List PageData → PipeState → List PageData × PipeState
  | [], _, acc, st => (acc, st)
  | p :: rest, i, acc, st =>
    extractPagesLoop file_path document_id total rest (i + 1)
      (if pyStrip (extract_text_with_ocr_fallback file_path i p st).1.text ≠ [] then
        acc ++ [(extract_text_with_ocr_fallback file_path i p st).1]
      else acc)
      (update_progress document_id (10 + i * 15 / total)
        ("extracted_page_" ++ toString i) none
        (extract_text_with_ocr_fallback file_path i p st).2)

/-- The progress entries the page loop writes: one per page, starting at
page index `i`. -/
def pageEntries (document_id : String) (total : Nat) :
    List PyPage → Nat → List (String × ProgressEntry)
  | [], _ => []
  | _ :: rest, i =>
    (document_id, ⟨10 + i * 15 / total, "extracted_page_" ++ toString i, none⟩) ::
      pageEntries document_id total rest (i + 1)

/-- The dict returned by `extract_pdf_text_task`. -/
structure ExtractResult where
  tenant_id : String
  document_id : String
  pages : List PageData
  total_pages : Nat
  total_chars : Nat
  deriving Repr, DecidableEq

/-- The `try` block of `extract_pdf_text_task`. -/
def extract_task_body (s : SessionOracle) (fs : String → Option (List PyPage))
    (tenant_id document_id file_path : String) (st : PipeState) :
    Except PyErr ExtractResult × PipeState :=
  let st1 := update_document_status s document_id "processing" none none
    (update_progress document_id 5 "starting" none st)
  if !(pyStartswith (pyJoin UPLOAD_DIR tenant_id) file_path) then
    (.error (.permissionError ("Invalid file path for tenant " ++ tenant_id)), st1)
  else match fs file_path with
    | none => (.error (.fileNotFoundError ("File not found: " ++ file_path)), st1)
    | some pages =>
      let res := extractPagesLoop file_path document_id pages.length pages 1 []
        (recordRead file_path (update_progress document_id 10 "extracting_text" none st1))
      if res.1 = [] then
        (.error (.valueError "No text could be extracted from PDF (all pages empty)"), res.2)
      else
        (.ok ⟨tenant_id, document_id, res.1, res.1.length,
          (res.1.map (fun p => p.text.length)).sum⟩,
          update_progress document_id 25 "text_extracted" none res.2)

/-- `extract_pdf_text_task(tenant_id, document_id, file_path)`.  The
filesystem is the oracle `fs`; `fs path = none` models a missing file,
`some pages` an existing PDF whose bytes `PdfReader` reads. -/
def extract_pdf_text_task (s : SessionOracle) (fs : String → Option (List PyPage))
    (tenant_id document_id file_path : String) (st : PipeState) :
    Except PyErr ExtractResult × PipeState :=
  tryStage s document_id (extract_task_body s fs tenant_id document_id file_path) st

/-! ## Stage 2: chunking -/

/-- The records appended for one page's chunks, with page-local index,
per-page total and running global index. -/
def chunkRecordsOfPage (pd : PageData) (cs : List RawChunk) (g0 : Nat) :
    List ChunkRecord :=
  ((List.range cs.length).zip cs).map (fun ic =>
    ⟨ic.2.text, pd.page_number, ic.1, cs.length, g0 + ic.1, pd.method,
      ic.2.char_start, ic.2.char_end⟩)

/-- The page loop of `chunk_text_task`.  `none` models the chunker still
running when the task's soft time limit fires. -/
def chunkPagesLoop (chunk_size overlap fuel : Nat) :
    List PageData → Nat → List ChunkRecord → Option (List ChunkRecord)
  | [], _, acc => some acc
  | pd :: rest, g, acc =>
    match chunk_with_smart_boundaries pd.text chunk_size overlap fuel with
    | none => none
    | some pageChunks =>
      chunkPagesLoop chunk_size overlap fuel rest (g + pageChunks.length)
        (acc ++ chunkRecordsOfPage pd pageChunks g)

/-- The dict returned by `chunk_text_task`. -/
structure ChunkResult where
  tenant_id : String
  document_id : String
  chunks : List ChunkRecord
  chunk_count : Nat
  page_count : Nat
  deriving Repr, DecidableEq

/-- The `try` block of `chunk_text_task`. -/
def chunk_task_body (fuel : Nat) (extraction_result : ExtractResult)
    (chunk_size overlap : Nat) (st : PipeState) : Except PyErr ChunkResult × PipeState :=
  let st1 := update_progress extraction_result.document_id 30 "chunking_text" none st
  match chunkPagesLoop chunk_size overlap fuel extraction_result.pages 0 [] with
  | none => (.error .softTimeLimitExceeded, st1)
  | some all_chunks =>
    if all_chunks = [] then
      (.error (.valueError "No chunks generated from text"), st1)
    else
      (.ok ⟨extraction_result.tenant_id, extraction_result.document_id, all_chunks,
        all_chunks.length, extraction_result.pages.length⟩,
        update_progress extraction_result.document_id 50 "chunks_stored" none
          (update_progress extraction_result.document_id 40 "storing_chunks" none st1))

/-- `chunk_text_task(extraction_result, chunk_size=500, overlap=75)`. -/
def chunk_text_task (s : SessionOracle) (fuel : Nat) (extraction_result : ExtractResult)
    (chunk_size overlap : Nat) (st : PipeState) : Except PyErr ChunkResult × PipeState :=
  tryStage s extraction_result.document_id
    (chunk_task_body fuel extraction_result chunk_size overlap) st

/-! ## Stage 3: embeddings -/

/-- The embedding backend (`generate_embeddings_batch`): a network call
that either raises (with `str` of the exception) or returns a list of
vectors. -/
abbrev EmbClient := List (List Char) → Except String (List Vec)

/-- The dict returned by `generate_embeddings_task`. -/
structure EmbedResult where
  tenant_id : String
  document_id : String
  chunks : List ChunkRecord
  embeddings : List Vec
  embedding_count : Nat
  deriving Repr, DecidableEq

/-- The `try` block of `generate_embeddings_task`. -/
def embed_task_body (client : EmbClient) (chunk_result : ChunkResult) (st : PipeState) :
    Except PyErr EmbedResult × PipeState :=
  let st1 := update_progress chunk_result.document_id 55 "generating_embeddings" none st
  match client (chunk_result.chunks.map (fun c => c.text)) with
  | .error m => (.error (.clientError m), st1)
  | .ok embeddings =>
    if embeddings.length ≠ chunk_result.chunks.length then
      (.error (.valueError ("Embedding count mismatch: " ++ toString embeddings.length
        ++ " != " ++ toString chunk_result.chunks.length)), st1)
    else
      (.ok ⟨chunk_result.tenant_id, chunk_result.document_id, chunk_result.chunks,
        embeddings, embeddings.length⟩,
        update_progress chunk_result.document_id 75 "embeddings_generated" none st1)

/-- `generate_embeddings_task(chunk_result)`: embed all chunk texts, then
re-validate `len(embeddings) == len(chunks)` and fail hard on mismatch. -/
def generate_embeddings_task (s : SessionOracle) (client : EmbClient)
    (chunk_result : ChunkResult) (st : PipeState) : Except PyErr EmbedResult × PipeState :=
  tryStage s chunk_result.document_id (embed_task_body client chunk_result) st

/-! ## Stage 4: vector index writer (`app/services/vector_store.py`) -/

/-- `ensure_collection_exists(collection_name, vector_size)`: create the
collection if absent. -/
def ensure_collection_exists (collection_name : String) (vector_size : Nat)
    (st : PipeState) : PipeState :=
  if collection_name ∈ st.collections then st
  else { st with collections := st.collections ++ [collection_name],
                 vectorOps := st.vectorOps ++ [.createCollection collection_name vector_size] }

/-- Worker for the batching loop: `acc` is the batch being built (reversed)
and `k` its remaining capacity. -/
def batchAux : List QPoint → Nat → List QPoint → List (List QPoint)
  | [], _, acc => if acc.isEmpty then [] else [acc.reverse]
  | p :: rest, 0, acc => acc.reverse :: batchAux rest 99 [p]
  | p :: rest, k + 1, acc => batchAux rest k (p :: acc)

/-- The `range(0, len(points), batch_size)` batching with `batch_size=100`,
written with an accumulator so it evaluates by structural recursion;
`batch100_take_drop` shows it equals the source's slicing loop
`points[i:i+100]`. -/
def batch100 (points : List QPoint) : List (List QPoint) := batchAux points 100 []

/-- `str(None)` / `str(uuid)` for the `uploaded_by` metadata field. -/
def uploadedByStr : Option String → String
  | some u => u
  | none => "None"

/-- `vector_size = len(chunks_with_metadata[0]["embedding"]) if
chunks_with_metadata else 768`. -/
def qdrantVecSize (chunks_with_metadata : List (Vec × ChunkMeta)) : Nat :=
  match chunks_with_metadata.head? with
  | some em => em.1.length
  | none => 768

/-- The points built by `upsert_to_qdrant_with_metadata`: one per chunk,
each with a freshly generated id (`uuid.uuid4()`, modelled as successive
counter values starting at `id0`) and the payload
`{"tenant_id": …, "document_id": …, **chunk_data["payload"]}`. -/
def mkPoints (document_id tenant_id : String) (chunks_with_metadata : List (Vec × ChunkMeta))
    (id0 : Nat) : List QPoint :=
  ((List.range chunks_with_metadata.length).zip chunks_with_metadata).map
    (fun kem => QPoint.mk (id0 + kem.1) kem.2.1 ⟨tenant_id, document_id, kem.2.2⟩)

/-- `upsert_to_qdrant_with_metadata(collection_name, document_id,
chunks_with_metadata, tenant_id)`: derive the vector size from the first
embedding (768 for an empty batch), ensure the collection, build one point
per chunk with a freshly generated id, and upsert in batches of 100. -/
def upsert_to_qdrant_with_metadata (collection_name document_id : String)
    (chunks_with_metadata : List (Vec × ChunkMeta)) (tenant_id : String)
    (st : PipeState) : PipeState :=
  let st := ensure_collection_exists collection_name (qdrantVecSize chunks_with_metadata) st
  let points := mkPoints document_id tenant_id chunks_with_metadata st.nextPointId
  let st := { st with nextPointId := st.nextPointId + points.length }
  (batch100 points).foldl
    (fun st b => { st with vectorOps := st.vectorOps ++ [.upsertBatch collection_name b] }) st

/-- `delete_document_from_qdrant(collection_name, document_id)`: one
delete-by-filter on `document_id`. -/
def delete_document_from_qdrant (collection_name document_id : String)
    (st : PipeState) : PipeState :=
  { st with vectorOps := st.vectorOps ++ [.deleteByDocument collection_name document_id] }

/-- The dict returned by `upsert_vectors_task`. -/
structure UpsertResult where
  tenant_id : String
  document_id : String
  status : String
  vector_count : Nat
  chunk_count : Nat
  deriving Repr, DecidableEq

/-- The chunk-with-document-metadata pairs built by `upsert_vectors_task`
for one fetched document row. -/
def chunksWithMetadata (embedding_result : EmbedResult) (doc : Document) :
    List (Vec × ChunkMeta) :=
  (embedding_result.chunks.zip embedding_result.embeddings).map
    (fun ce => (ce.2, ChunkMeta.mk ce.1 doc.title doc.filename doc.author doc.tags
      doc.document_type doc.created_at (uploadedByStr doc.uploaded_by)))

/-- The `try` block of `upsert_vectors_task`. -/
def upsert_task_body (s : SessionOracle) (embedding_result : EmbedResult)
    (st : PipeState) : Except PyErr UpsertResult × PipeState :=
  let st1 := update_progress embedding_result.document_id 80 "upserting_vectors" none st
  if s.queryFails then (.error (.dbError "database query failed"), st1)
  else match st1.db.find? (fun d => d.doc_id == embedding_result.document_id) with
  | none =>
    (.error (.valueError ("Document " ++ embedding_result.document_id ++ " not found")), st1)
  | some doc =>
    (.ok ⟨embedding_result.tenant_id, embedding_result.document_id, "completed",
      embedding_result.embeddings.length, embedding_result.chunks.length⟩,
      update_progress embedding_result.document_id 100 "completed" none
        (update_document_status s embedding_result.document_id "completed"
          (some embedding_result.chunks.length) none
          (update_progress embedding_result.document_id 90 "vectors_upserted" none
            (upsert_to_qdrant_with_metadata ("tenant_" ++ embedding_result.tenant_id)
              embedding_result.document_id (chunksWithMetadata embedding_result doc)
              embedding_result.tenant_id st1))))

/-- `upsert_vectors_task(embedding_result)`: re-fetch the document row for
payload enrichment, zip chunks with embeddings, upsert, then mark the
document completed and report 100%. -/
def upsert_vectors_task (s : SessionOracle) (embedding_result : EmbedResult)
    (st : PipeState) : Except PyErr UpsertResult × PipeState :=
  tryStage s embedding_result.document_id (upsert_task_body s embedding_result) st

/-! ## Orchestration -/

/-- The celery chain queued by `process_document_pipeline`, as executed by
the workers: the four stage tasks run strictly in order, each consuming the
previous stage's result; a raised exception aborts the chain (later stages
never run).  `chunk_text_task` is invoked with its default
`chunk_size=500, overlap=75`. -/
def runChain (s : SessionOracle) (fs : String → Option (List PyPage))
    (client : EmbClient) (fuel : Nat) (tenant_id document_id file_path : String)
    (st : PipeState) : Except PyErr UpsertResult × PipeState :=
  match extract_pdf_text_task s fs tenant_id document_id file_path st with
  | (.error e, st) => (.error e, st)
  | (.ok ex, st) =>
    match chunk_text_task s fuel ex 500 75 st with
    | (.error e, st) => (.error e, st)
    | (.ok ch, st) =>
      match generate_embeddings_task s client ch st with
      | (.error e, st) => (.error e, st)
      | (.ok em, st) => upsert_vectors_task s em st

/-- The tail of the chain from a chunking-stage result: the embedding stage
followed (on success only) by the vector-write stage — any run of the chain
that reaches stage 3 with this `chunk_result` continues exactly like
this. -/
def runEmbedUpsert (s : SessionOracle) (client : EmbClient) (chunk_result : ChunkResult)
    (st : PipeState) : Except PyErr UpsertResult × PipeState :=
  match generate_embeddings_task s client chunk_result st with
  | (.error e, st) => (.error e, st)
  | (.ok em, st) => upsert_vectors_task s em st

/-- Allocate a fresh celery task id (`apply_async(...).id`): ids are drawn
from a counter, so every allocated id differs from all earlier ones. -/
def allocTaskId (st : PipeState) : Nat × PipeState :=
  (st.nextTaskId, { st with nextTaskId := st.nextTaskId + 1 })

/-- The dict returned by `retry_failed_document_task`. -/
structure RetryTaskResult where
  document_id : String
  new_task_id : Nat
  status : String
  deriving Repr, DecidableEq

/-- `retry_failed_document_task(tenant_id, document_id)`: re-check the row
(status must be `failed` or `pending`), reset it to `pending`, report
progress 0/`retrying`, and queue `process_document_pipeline` (stage 1 of a
fresh chain) with the document's stored file path.  Its `except` clause
only logs and re-raises. -/
def retry_failed_document_task (s : SessionOracle) (tenant_id document_id : String)
    (st : PipeState) : Except PyErr RetryTaskResult × PipeState :=
  if s.queryFails then (.error (.dbError "database query failed"), st)
  else match st.db.find? (fun d => d.doc_id == document_id && d.tenant_id == tenant_id) with
  | none => (.error (.valueError ("Document " ++ document_id ++ " not found for tenant "
      ++ tenant_id)), st)
  | some doc =>
    if doc.processing_status ≠ "failed" ∧ doc.processing_status ≠ "pending" then
      (.error (.valueError ("Document is not in failed state: " ++ doc.processing_status)), st)
    else
      let st := update_document_status s document_id "pending" none none st
      let st := update_progress document_id 0 "retrying" none st
      let (tid, st) := allocTaskId st
      (.ok ⟨document_id, tid, "queued"⟩, st)

/-- `delete_document_vectors_task(tenant_id, document_id)`: the only place
the pipeline issues a delete-by-document-id, triggered by document
deletion. -/
def delete_document_vectors_task (tenant_id document_id : String)
    (st : PipeState) : Except PyErr (String × String) × PipeState :=
  (.ok (tenant_id, document_id),
    delete_document_from_qdrant ("tenant_" ++ tenant_id) document_id st)

/-- An HTTP error response of the router. -/
inductive HTTPError where
  | httpException (status_code : Nat) (detail : String)
  deriving Repr, DecidableEq

/-- The response of the retry endpoint. -/
structure RetryResponse where
  doc_id : String
  status : String
  task_id : Nat
  message : String
  deriving Repr, DecidableEq

/-- The row mutation of the retry endpoint:
`document.processing_status = "pending"; document.error_message = None`. -/
def resetRow : Document → Document :=
  fun d => { d with processing_status := "pending", error_message := none }

/-- `POST /{doc_id}/retry` (`app/routers/document.py`,
`retry_failed_document`): 404 when the tenant has no such document, 400
unless `processing_status == "failed"`; otherwise set the row to `pending`
with the error message cleared, commit, and queue
`retry_failed_document_task`. -/
def retry_failed_document (tenant_id doc_id : String) (st : PipeState) :
    Except HTTPError RetryResponse × PipeState :=
  match st.db.find? (fun d => d.doc_id == doc_id && d.tenant_id == tenant_id) with
  | none => (.error (.httpException 404 "Document not found"), st)
  | some doc =>
    if doc.processing_status ≠ "failed" then
      (.error (.httpException 400 ("Cannot retry document in '" ++ doc.processing_status
        ++ "' status")), st)
    else
      let st := { st with db := dbSetFirst st.db doc_id resetRow }
      let (tid, st) := allocTaskId st
      (.ok ⟨doc_id, "pending", tid, "Document queued for retry"⟩, st)

/-- The retry operation end to end: the endpoint, followed by the queued
`retry_failed_document_task` when the endpoint accepted. -/
def retryFlow (s : SessionOracle) (tenant_id doc_id : String) (st : PipeState) :
    Except HTTPError (Except PyErr RetryTaskResult) × PipeState :=
  match retry_failed_document tenant_id doc_id st with
  | (.error e, st) => (.error e, st)
  | (.ok _resp, st) =>
    let (r, st) := retry_failed_document_task s tenant_id doc_id st
    (.ok r, st)

/-! ## Claim-side path resolution (for C1) -/

/-- Split a character list on `/` (structurally, so it evaluates). -/
def splitChars : List Char → List (List Char)
  | [] => [[]]
  | c :: rest =>
    if c = '/' then [] :: splitChars rest
    else match splitChars rest with
      | [] => [[c]]
      | g :: gs => (c :: g) :: gs

/-- Path components, split on `/`. -/
def splitPath (p : String) : List String := (splitChars p.data).map (fun g => ⟨g⟩)

/-- Resolve `..` and `.` components (lexical normalization, the claim's
"after resolution"). -/
def resolveComponents (cs : List String) : List String :=
  cs.foldl (fun acc c =>
    if c = ".." then acc.dropLast
    else if c = "." ∨ c = "" then acc
    else acc ++ [c]) []

/-- The claim's "resides under the tenant's isolated storage prefix": after
resolution, the directory's components are a prefix of the path's. -/
def residesUnder (dir path : String) : Bool :=
  (resolveComponents (splitPath dir)).isPrefixOf (resolveComponents (splitPath path))

/-- Convenience projections used in theorem statements. -/
def dbStatus (db : List Document) (docId : String) : Option String :=
  (db.find? (fun d => d.doc_id == docId)).map (fun d => d.processing_status)

def dbErrorMessage (db : List Document) (docId : String) : Option (Option String) :=
  (db.find? (fun d => d.doc_id == docId)).map (fun d => d.error_message)

/-- The document table has a row for `docId`. -/
def docPresent (st : PipeState) (docId : String) : Prop :=
  (st.db.find? (fun d => d.doc_id == docId)).isSome = true

/-- The progress writes a run appended to the log, given the log it started
from. -/
def newEntries (old new : List (String × ProgressEntry)) : List (String × ProgressEntry) :=
  new.drop old.length

/-- The percent values of a progress-write log. -/
def percentsOf (l : List (String × ProgressEntry)) : List Nat :=
  l.map (fun e => e.2.percent)

/-- Whether a vector-index operation is a delete. -/
def isDeleteOp : QdrantOp → Bool
  | .deleteByDocument _ _ => true
  | _ => false

/-- Whether a vector-index operation is an upsert. -/
def isUpsertOp : QdrantOp → Bool
  | .upsertBatch _ _ => true
  | _ => false

/-- Python `rfind` result encoding: a position, or `-1` for "not found". -/
def optInt : Option Nat → Int
  | some i => (i : Int)
  | none => -1

/-! ## Concrete fixtures used in counterexamples and witnesses -/

/-- 55 `x`s, one space, 65 `y`s: with `chunk_size=60`, `overlap=55` the
window cuts at the space (index 55) and the next start is `55 - 55 = 0`
again — the loop never advances. -/
def hangText : List Char := List.replicate 55 'x' ++ [' '] ++ List.replicate 65 'y'

/-- 51 `a`s, 60 newlines, 51 `b`s: with `chunk_size=60`, `overlap=9` the
middle window strips to nothing and is discarded, de-coupling the
neighbouring kept chunks. -/
def dropText : List Char :=
  List.replicate 51 'a' ++ List.replicate 60 '\n' ++ List.replicate 51 'b'

/-- A space at index 0 followed by 100 `a`s: the only space of the first
window sits exactly at the window start. -/
def spaceText : List Char := ' ' :: List.replicate 100 'a'

/-- 120 `a`s: with `chunk_size=60`, `overlap=9` two consecutive windows
keep their chunks. -/
def twoWinText : List Char := List.replicate 120 'a'

/-- The iteration trace of the chunker on `twoWinText`. -/
def twoWinTrace : List (Option RawChunk) :=
  [some ⟨List.replicate 60 'a', 0, 60⟩, some ⟨List.replicate 60 'a', 51, 111⟩, none]

/-- A pending document of tenant `t1`. -/
def demoDoc : Document :=
  ⟨"d1", "t1", "./uploads/t1/doc.pdf", "pending", none, none, "Title", "doc.pdf",
    none, [], none, none, none⟩

/-- A one-page PDF whose embedded text is 60 `a`s. -/
def demoPage : PyPage := ⟨List.replicate 60 'a', none⟩

/-- A filesystem holding exactly `demoDoc`'s file. -/
def demoFs : String → Option (List PyPage) :=
  fun p => if p = "./uploads/t1/doc.pdf" then some [demoPage] else none

/-- A backend returning one vector per input text. -/
def okClient : EmbClient := fun ts => .ok (ts.map (fun _ => [0]))

/-- A backend whose call raises an exception with an empty message. -/
def emptyMsgClient : EmbClient := fun _ => .error ""

/-- Fresh state holding only `demoDoc`. -/
def demoState : PipeState := ⟨[demoDoc], [], [], [], [], 0, 0⟩

/-- A path lexically under tenant `t1`'s prefix that resolves into tenant
`t2`'s directory. -/
def travPath : String := "./uploads/t1/../t2/doc.pdf"

/-- A filesystem holding a file at the traversal path. -/
def travFs : String → Option (List PyPage) :=
  fun p => if p = travPath then some [demoPage] else none

/-- State whose document points at the traversal path. -/
def travState : PipeState :=
  ⟨[{ demoDoc with file_path := travPath }], [], [], [], [], 0, 0⟩

/-- `demoDoc` after a failed run. -/
def failedDoc : Document :=
  { demoDoc with processing_status := "failed", error_message := some "boom" }

/-- State holding the failed document, with task-id counter at 7. -/
def failedState : PipeState := ⟨[failedDoc], [], [], [], [], 0, 7⟩

/-- `demoDoc` after a completed run. -/
def completedDoc : Document :=
  { demoDoc with processing_status := "completed", total_chunks := some 1 }

/-- State holding the completed document. -/
def completedState : PipeState := ⟨[completedDoc], [], [], [], [], 0, 7⟩

/-- Ten chunks for the count-mismatch scenario. -/
def tenChunks : List ChunkRecord :=
  (List.range 10).map (fun k => ⟨List.replicate 60 'a', 1, k, 10, k, "text_extraction", 0, 500⟩)

/-- A chunking-stage result carrying the ten chunks. -/
def tenChunkResult : ChunkResult := ⟨"t1", "d1", tenChunks, 10, 1⟩

/-- A backend returning 9 vectors for any batch. -/
def nineClient : EmbClient := fun _ => .ok (List.replicate 9 [0])

/-- The chain run in which the embedding backend raises with an empty
message. -/
def emptyMsgRun : Except PyErr UpsertResult × PipeState :=
  runChain reliableSession demoFs emptyMsgClient 100 "t1" "d1" "./uploads/t1/doc.pdf" demoState

/-- The chain run on a path whose file does not exist. -/
def missingRun : Except PyErr UpsertResult × PipeState :=
  runChain reliableSession demoFs okClient 100 "t1" "d1" "./uploads/t1/missing.pdf" demoState

/-- The point written by the document's first processing run. -/
def priorPoint : QPoint :=
  ⟨0, [0], ⟨"t1", "d1", ⟨⟨List.replicate 60 'a', 1, 0, 1, 0, "text_extraction", 0, 500⟩,
    "Title", "doc.pdf", none, [], none, none, "None"⟩⟩⟩

/-- The state after the document's first run wrote `priorPoint` and then
the document was marked failed: the tenant collection exists, the index
holds the prior point, and the next fresh point id is 1. -/
def reprocessState : PipeState :=
  ⟨[failedDoc], [], [QdrantOp.upsertBatch "tenant_t1" [priorPoint]], ["tenant_t1"], [], 1, 0⟩

/-- Reprocessing: the full chain re-run on the document from
`reprocessState`. -/
def reprocessRun : Except PyErr UpsertResult × PipeState :=
  runChain reliableSession demoFs okClient 100 "t1" "d1" "./uploads/t1/doc.pdf" reprocessState

/-! # Theorems -/

/-! ## Backward-search (`greatestB`) theory -/

theorem greatestB_eq_none {p : Nat → Bool} :
    ∀ {n : Nat}, greatestB p n = none ↔ ∀ k, k < n → ¬ p k = true
  | 0 => by simp [greatestB]
  | n + 1 => by
    rw [greatestB]
    by_cases h : p n = true
    · rw [if_pos h]
      constructor
      · intro hc; cases hc
      · intro hall; exact absurd h (hall n (Nat.lt_succ_self n))
    · rw [if_neg h, greatestB_eq_none (n := n)]
      constructor
      · intro hall k hk
        rcases Nat.lt_succ_iff_lt_or_eq.mp hk with hk' | rfl
        · exact hall k hk'
        · exact h
      · intro hall k hk
        exact hall k (Nat.lt_succ_of_lt hk)

theorem greatestB_eq_some {p : Nat → Bool} :
    ∀ {n m : Nat}, greatestB p n = some m ↔
      m < n ∧ p m = true ∧ ∀ k, m < k → k < n → ¬ p k = true
  | 0, m => by simp [greatestB]
  | n + 1, m => by
    rw [greatestB]
    by_cases h : p n = true
    · rw [if_pos h]
      constructor
      · intro hc
        cases hc
        exact ⟨Nat.lt_succ_self _, h, fun k hk hk' => by omega⟩
      · rintro ⟨hm, hpm, hmax⟩
        rcases Nat.lt_succ_iff_lt_or_eq.mp hm with hm' | rfl
        · exact absurd h (hmax n hm' (Nat.lt_succ_self n))
        · rfl
    · rw [if_neg h, greatestB_eq_some (n := n)]
      constructor
      · rintro ⟨hm, hpm, hmax⟩
        refine ⟨Nat.lt_succ_of_lt hm, hpm, fun k hk hk' => ?_⟩
        rcases Nat.lt_succ_iff_lt_or_eq.mp hk' with hk'' | rfl
        · exact hmax k hk hk''
        · exact h
      · rintro ⟨hm, hpm, hmax⟩
        rcases Nat.lt_succ_iff_lt_or_eq.mp hm with hm' | rfl
        · exact ⟨hm', hpm, fun k hk hk' => hmax k hk (Nat.lt_succ_of_lt hk')⟩
        · exact absurd hpm h

theorem greatestB_le {p : Nat → Bool} {n m k : Nat} (h : greatestB p n = some m)
    (hk : p k = true) (hkn : k < n) : k ≤ m := by
  rcases greatestB_eq_some.mp h with ⟨-, -, hmax⟩
  by_contra hlt
  exact hmax k (by omega) hkn hk

theorem greatestB_isSome {p : Nat → Bool} {n k : Nat} (hk : p k = true)
    (hkn : k < n) : ∃ m, greatestB p n = some m := by
  cases hg : greatestB p n with
  | some m => exact ⟨m, rfl⟩
  | none => exact absurd hk (greatestB_eq_none.mp hg k hkn)

theorem neg_one_le_optInt (x : Option Nat) : -1 ≤ optInt x := by
  cases x
  · exact le_refl (-1 : Int)
  · exact le_trans (by omega : (-1 : Int) ≤ 0) (Int.natCast_nonneg _)

theorem optInt_le_of_imp {p q : Nat → Bool} {n : Nat}
    (h : ∀ k, p k = true → q k = true) :
    optInt (greatestB p n) ≤ optInt (greatestB q n) := by
  cases hp : greatestB p n with
  | none => exact neg_one_le_optInt _
  | some m =>
    obtain ⟨hm, hpm, -⟩ := greatestB_eq_some.mp hp
    obtain ⟨m', hq⟩ := greatestB_isSome (h m hpm) hm
    rw [hq]
    simpa [optInt] using greatestB_le hq (h m hpm) hm

/-! ## Python `rfind` over non-negative window bounds -/

theorem pySliceIdx_natCast (len s : Nat) (h : s ≤ len) :
    pySliceIdx len (s : Int) = s := by
  unfold pySliceIdx
  rw [if_neg (by omega : ¬ (s : Int) < 0)]
  simp [Nat.min_eq_left h]

theorem pyRfind2_eq (t : List Char) (a b : Char) (s e : Nat)
    (hs : s ≤ t.length) (he : e ≤ t.length) :
    pyRfind2 t a b (s : Int) (e : Int) =
      optInt (greatestB (fun i => decide (s ≤ i) && decide (i + 2 ≤ e) &&
        (t.get? i == some a) && (t.get? (i + 1) == some b)) e) := by
  unfold pyRfind2
  simp only [pySliceIdx_natCast t.length s hs, pySliceIdx_natCast t.length e he]
  cases greatestB (fun i => decide (s ≤ i) && decide (i + 2 ≤ e) &&
      (t.get? i == some a) && (t.get? (i + 1) == some b)) e <;> rfl

theorem pyRfind1_space_eq (t : List Char) (s e : Nat)
    (hs : s ≤ t.length) (he : e ≤ t.length) :
    pyRfind1 t ' ' (s : Int) (e : Int) = optInt (lastSpaceWithin t s e) := by
  unfold pyRfind1 lastSpaceWithin
  simp only [pySliceIdx_natCast t.length s hs, pySliceIdx_natCast t.length e he]
  cases greatestB (fun i => decide (s ≤ i) && (t.get? i == some ' ')) e <;> rfl

theorem pairPred_imp_term (t : List Char) (s e : Nat) (a : Char)
    (ha : a = '.' ∨ a = '?' ∨ a = '!') (k : Nat)
    (h : (decide (s ≤ k) && decide (k + 2 ≤ e) &&
      (t.get? k == some a) && (t.get? (k + 1) == some ' ')) = true) :
    (decide (s ≤ k) && decide (k + 2 ≤ e) && isTerminatorAt t k) = true := by
  simp only [Bool.and_eq_true, decide_eq_true_eq, beq_iff_eq, isTerminatorAt,
    Bool.or_eq_true, and_assoc, or_assoc] at h ⊢
  rcases ha with rfl | rfl | rfl <;> tauto

theorem sentenceEnd_eq (t : List Char) (s e : Nat)
    (hs : s ≤ t.length) (he : e ≤ t.length) :
    sentenceEnd t (s : Int) (e : Int) = optInt (lastTerminator t s e) := by
  unfold sentenceEnd
  rw [pyRfind2_eq t '.' ' ' s e hs he, pyRfind2_eq t '?' ' ' s e hs he,
    pyRfind2_eq t '!' ' ' s e hs he]
  apply le_antisymm
  · refine max_le (max_le ?_ ?_) ?_
    all_goals
      apply optInt_le_of_imp
      intro k hk
      first
      | exact pairPred_imp_term t s e '.' (Or.inl rfl) k hk
      | exact pairPred_imp_term t s e '?' (Or.inr (Or.inl rfl)) k hk
      | exact pairPred_imp_term t s e '!' (Or.inr (Or.inr rfl)) k hk
  · cases hT : lastTerminator t s e with
    | none =>
      calc optInt none = -1 := rfl
        _ ≤ _ := le_trans (neg_one_le_optInt _) (le_max_right _ _)
    | some m =>
      obtain ⟨hm, hpm, -⟩ := greatestB_eq_some.mp hT
      have hpm' := hpm
      simp only [Bool.and_eq_true, decide_eq_true_eq, beq_iff_eq, isTerminatorAt,
        Bool.or_eq_true, and_assoc, or_assoc] at hpm'
      obtain ⟨hsk, hk2, hchar, hsp⟩ := hpm'
      have key : ∀ a : Char, t.get? m = some a →
          (m : Int) ≤ optInt (greatestB (fun i => decide (s ≤ i) && decide (i + 2 ≤ e) &&
            (t.get? i == some a) && (t.get? (i + 1) == some ' ')) e) := by
        intro a hga
        have hpa : (decide (s ≤ m) && decide (m + 2 ≤ e) &&
            (t.get? m == some a) && (t.get? (m + 1) == some ' ')) = true := by
          simp only [Bool.and_eq_true, decide_eq_true_eq, beq_iff_eq, and_assoc]
          exact ⟨hsk, hk2, hga, hsp⟩
        obtain ⟨m', hm'⟩ := greatestB_isSome
          (p := fun i => decide (s ≤ i) && decide (i + 2 ≤ e) &&
            (t.get? i == some a) && (t.get? (i + 1) == some ' ')) hpa hm
        rw [hm']
        simpa [optInt] using greatestB_le hm' hpa hm
      simp only [optInt]
      rcases hchar with hdot | hq | hex
      · exact le_trans (key '.' hdot) (le_trans (le_max_left _ _) (le_max_left _ _))
      · exact le_trans (key '?' hq) (le_trans (le_max_right _ _) (le_max_left _ _))
      · exact le_trans (key '!' hex) (le_max_right _ _)

theorem space_fallback_eq (t : List Char) (s e : Nat) :
    (if optInt (lastSpaceWithin t s e) > (s : Int) then optInt (lastSpaceWithin t s e)
      else (e : Int)) = ((specCutSpace (lastSpaceStrictlyAfter t s e) e : Nat) : Int) := by
  cases hW : lastSpaceWithin t s e with
  | none =>
    have hWn := greatestB_eq_none.mp (show greatestB _ e = none from hW)
    have hS : lastSpaceStrictlyAfter t s e = none := by
      unfold lastSpaceStrictlyAfter
      rw [greatestB_eq_none]
      intro k hk hp
      apply hWn k hk
      simp only [Bool.and_eq_true, decide_eq_true_eq] at hp ⊢
      exact ⟨le_of_lt hp.1, hp.2⟩
    rw [hS]
    rw [if_neg (by simp [optInt]; omega)]
    rfl
  | some m =>
    obtain ⟨hm, hpm, hmax⟩ := greatestB_eq_some.mp (show greatestB _ e = some m from hW)
    simp only [Bool.and_eq_true, decide_eq_true_eq] at hpm
    by_cases hgt : s < m
    · have hS : lastSpaceStrictlyAfter t s e = some m := by
        unfold lastSpaceStrictlyAfter
        rw [greatestB_eq_some]
        refine ⟨hm, by simp only [Bool.and_eq_true, decide_eq_true_eq]; exact ⟨hgt, hpm.2⟩,
          fun k hk hk' hp => ?_⟩
        apply hmax k hk hk'
        simp only [Bool.and_eq_true, decide_eq_true_eq] at hp ⊢
        exact ⟨le_of_lt hp.1, hp.2⟩
      rw [hS, if_pos (by simp only [optInt]; exact_mod_cast hgt)]
      rfl
    · have hm_eq : m = s := le_antisymm (by omega) hpm.1
      have hS : lastSpaceStrictlyAfter t s e = none := by
        unfold lastSpaceStrictlyAfter
        rw [greatestB_eq_none]
        intro k hk hp
        simp only [Bool.and_eq_true, decide_eq_true_eq] at hp
        have : k ≤ m := greatestB_le (show greatestB _ e = some m from hW)
          (by simp only [Bool.and_eq_true, decide_eq_true_eq]; exact ⟨le_of_lt hp.1, hp.2⟩) hk
        omega
      rw [hS, if_neg (by simp only [optInt]; omega)]
      rfl

theorem computeEnd_eq_specCut (text : List Char) (chunk_size start : Nat) :
    computeEnd text chunk_size (start : Int) = ((specCut text chunk_size start : Nat) : Int) := by
  by_cases hlen : start + chunk_size < text.length
  · have hs : start ≤ text.length := by omega
    have he : start + chunk_size ≤ text.length := le_of_lt hlen
    have hcast : (start : Int) + (chunk_size : Int) = ((start + chunk_size : Nat) : Int) := by
      push_cast; ring
    unfold computeEnd specCut
    rw [if_pos (show (start : Int) + (chunk_size : Int) < (text.length : Int) by
      exact_mod_cast hlen)]
    rw [if_pos hlen, hcast, sentenceEnd_eq text start (start + chunk_size) hs he,
      pyRfind1_space_eq text start (start + chunk_size) hs he]
    cases hT : lastTerminator text start (start + chunk_size) with
    | none =>
      rw [if_neg (by simp only [optInt]; omega)]
      simp only [specCutTerm]
      exact space_fallback_eq text start (start + chunk_size)
    | some i =>
      simp only [specCutTerm]
      by_cases hthr : start + smartThreshold chunk_size < i
      · rw [if_pos (by simp only [optInt]; exact_mod_cast hthr), if_pos hthr]
        simp only [optInt]
        push_cast
        ring
      · rw [if_neg (by simp only [optInt]; omega), if_neg hthr]
        exact space_fallback_eq text start (start + chunk_size)
  · unfold computeEnd specCut
    rw [if_neg (show ¬ (start : Int) + (chunk_size : Int) < (text.length : Int) by omega)]
    rw [if_neg hlen]
    exact (Nat.cast_add start chunk_size).symm

/-! ## Chunker loop lemmas -/

theorem chunkStep_fst_some (text : List Char) (cs ov : Nat) (s : Int) (c : RawChunk)
    (h : (chunkStep text cs ov s).1 = some c) :
    c.char_start = s ∧ c.char_end = computeEnd text cs s := by
  simp only [chunkStep] at h
  split at h
  · cases h; exact ⟨rfl, rfl⟩
  · cases h

theorem chunkTraceF_head_start (text : List Char) (cs ov : Nat) :
    ∀ (f : Nat) (s : Int) (tr : List (Option RawChunk)) (c : RawChunk),
      chunkTraceF text cs ov s f = some tr → tr.get? 0 = some (some c) →
      c.char_start = s := by
  intro f s tr c htr hc
  cases f with
  | zero =>
    simp only [chunkTraceF] at htr
    split at htr
    · cases htr
    · cases htr; cases hc
  | succ n =>
    simp only [chunkTraceF] at htr
    split at htr
    · split at htr
      next => cases htr
      next tr' heq =>
        cases htr
        exact (chunkStep_fst_some text cs ov s c (by simpa using hc)).1
    · cases htr; cases hc

theorem chunkTraceF_adjacent (text : List Char) (cs ov : Nat) :
    ∀ (f : Nat) (s : Int) (tr : List (Option RawChunk)) (i : Nat) (c c' : RawChunk),
      chunkTraceF text cs ov s f = some tr →
      tr.get? i = some (some c) → tr.get? (i + 1) = some (some c') →
      c'.char_start = c.char_end - (ov : Int) := by
  intro f
  induction f with
  | zero =>
    intro s tr i c c' htr h1 _h2
    simp only [chunkTraceF] at htr
    split at htr
    · cases htr
    · cases htr; cases h1
  | succ n ih =>
    intro s tr i c c' htr h1 h2
    simp only [chunkTraceF] at htr
    split at htr
    · split at htr
      next => cases htr
      next tr' heq =>
        cases htr
        cases i with
        | zero =>
          have hc := chunkStep_fst_some text cs ov s c (by simpa using h1)
          have hstart := chunkTraceF_head_start text cs ov n (chunkStep text cs ov s).2
            tr' c' heq (by simpa using h2)
          rw [hstart, show (chunkStep text cs ov s).2 = computeEnd text cs s - (ov : Int)
            from rfl, ← hc.2]
        | succ j => exact ih _ _ _ _ _ heq (by simpa using h1) (by simpa using h2)
    · cases htr; cases h1

/-! ## Database helper lemmas -/

theorem applyTotalChunks_doc_id (tc : Option Nat) (d : Document) :
    (applyTotalChunks tc d).doc_id = d.doc_id := by
  cases tc <;> rfl

theorem applyErrorMessage_doc_id (em : Option String) (d : Document) :
    (applyErrorMessage em d).doc_id = d.doc_id := by
  cases em with
  | none => rfl
  | some m =>
    simp only [applyErrorMessage]
    split <;> rfl

theorem applyStatus_doc_id (status : String) (tc : Option Nat) (em : Option String)
    (d : Document) : (applyStatus status tc em d).doc_id = d.doc_id := by
  unfold applyStatus
  rw [applyErrorMessage_doc_id, applyTotalChunks_doc_id]

theorem applyTotalChunks_status (tc : Option Nat) (d : Document) :
    (applyTotalChunks tc d).processing_status = d.processing_status := by
  cases tc <;> rfl

theorem applyErrorMessage_status (em : Option String) (d : Document) :
    (applyErrorMessage em d).processing_status = d.processing_status := by
  cases em with
  | none => rfl
  | some m =>
    simp only [applyErrorMessage]
    split <;> rfl

theorem applyStatus_status (status : String) (tc : Option Nat) (em : Option String)
    (d : Document) : (applyStatus status tc em d).processing_status = status := by
  unfold applyStatus
  rw [applyErrorMessage_status, applyTotalChunks_status]

theorem applyTotalChunks_error_message (tc : Option Nat) (d : Document) :
    (applyTotalChunks tc d).error_message = d.error_message := by
  cases tc <;> rfl

theorem applyStatus_error_message_some (status : String) (tc : Option Nat) (m : String)
    (hm : m ≠ "") (d : Document) :
    (applyStatus status tc (some m) d).error_message = some m := by
  simp only [applyStatus, applyErrorMessage]
  rw [if_pos hm]

theorem applyStatus_error_message_empty (status : String) (tc : Option Nat)
    (d : Document) :
    (applyStatus status tc (some "") d).error_message = d.error_message := by
  simp only [applyStatus, applyErrorMessage]
  rw [if_neg (by simp)]
  exact applyTotalChunks_error_message tc _

theorem dbSetFirst_id_of_none (db : List Document) (key : String)
    (f : Document → Document) (h : db.find? (fun x => x.doc_id == key) = none) :
    dbSetFirst db key f = db := by
  induction db with
  | nil => rfl
  | cons x rest ih =>
    simp only [List.find?_cons] at h
    unfold dbSetFirst
    cases hk : x.doc_id == key with
    | true =>
      rw [hk] at h
      exact Option.noConfusion h
    | false =>
      rw [hk] at h
      rw [if_neg (by simp [hk]), ih h]

theorem find?_dbSetFirst_self (db : List Document) (key : String)
    (f : Document → Document) (hf : ∀ x, (f x).doc_id = x.doc_id) :
    (dbSetFirst db key f).find? (fun x => x.doc_id == key) =
      (db.find? (fun x => x.doc_id == key)).map f := by
  induction db with
  | nil => rfl
  | cons x rest ih =>
    unfold dbSetFirst
    cases hk : x.doc_id == key with
    | true =>
      rw [if_pos rfl]
      simp only [List.find?_cons]
      rw [hf x, hk]
      rfl
    | false =>
      rw [if_neg (by simp)]
      simp only [List.find?_cons]
      rw [hk]
      exact ih

theorem find?_isSome_dbSetFirst (db : List Document) (key : String)
    (f : Document → Document) (hf : ∀ x, (f x).doc_id = x.doc_id) (d : String) :
    ((dbSetFirst db key f).find? (fun x => x.doc_id == d)).isSome =
      (db.find? (fun x => x.doc_id == d)).isSome := by
  induction db with
  | nil => rfl
  | cons x rest ih =>
    unfold dbSetFirst
    cases hk : x.doc_id == key with
    | true =>
      rw [if_pos rfl]
      simp only [List.find?_cons]
      rw [hf x]
      cases x.doc_id == d <;> rfl
    | false =>
      rw [if_neg (by simp)]
      simp only [List.find?_cons]
      cases x.doc_id == d with
      | true => rfl
      | false => exact ih

theorem update_document_status_side (s : SessionOracle) (d status : String)
    (tc : Option Nat) (em : Option String) (st : PipeState) :
    (update_document_status s d status tc em st).progressLog = st.progressLog ∧
    (update_document_status s d status tc em st).vectorOps = st.vectorOps ∧
    (update_document_status s d status tc em st).collections = st.collections ∧
    (update_document_status s d status tc em st).reads = st.reads ∧
    (update_document_status s d status tc em st).nextPointId = st.nextPointId ∧
    (update_document_status s d status tc em st).nextTaskId = st.nextTaskId := by
  unfold update_document_status
  cases update_document_status_try s d status tc em st.db <;>
    exact ⟨rfl, rfl, rfl, rfl, rfl, rfl⟩

theorem update_document_status_reliable_db (d status : String) (tc : Option Nat)
    (em : Option String) (st : PipeState) :
    (update_document_status reliableSession d status tc em st).db =
      dbSetFirst st.db d (applyStatus status tc em) := by
  unfold update_document_status update_document_status_try reliableSession
  cases hfind : st.db.find? (fun x => x.doc_id == d) with
  | some doc => rfl
  | none => exact (dbSetFirst_id_of_none st.db d _ hfind).symm

theorem docPresent_update_document_status (s : SessionOracle) (k status : String)
    (tc : Option Nat) (em : Option String) (st : PipeState) (d : String)
    (h : docPresent st d) : docPresent (update_document_status s k status tc em st) d := by
  unfold update_document_status
  unfold docPresent at h ⊢
  cases htry : update_document_status_try s k status tc em st.db with
  | error m => exact h
  | ok db' =>
    unfold update_document_status_try at htry
    split at htry
    · cases htry
    · split at htry
      next =>
        split at htry
        · cases htry
        · cases htry
          rw [find?_isSome_dbSetFirst st.db k _ (fun x => applyStatus_doc_id status tc em x) d]
          exact h
      next =>
        cases htry
        exact h

theorem dbStatus_update_reliable (d status : String) (tc : Option Nat)
    (em : Option String) (st : PipeState) (h : docPresent st d) :
    dbStatus (update_document_status reliableSession d status tc em st).db d = some status := by
  rw [update_document_status_reliable_db]
  unfold dbStatus
  rw [find?_dbSetFirst_self st.db d _ (fun x => applyStatus_doc_id status tc em x)]
  unfold docPresent at h
  obtain ⟨doc, hdoc⟩ := Option.isSome_iff_exists.mp h
  rw [hdoc]
  simp [applyStatus_status]

theorem dbErrorMessage_update_reliable (d status : String) (tc : Option Nat)
    (m : String) (hm : m ≠ "") (st : PipeState) (h : docPresent st d) :
    dbErrorMessage (update_document_status reliableSession d status tc (some m) st).db d =
      some (some m) := by
  rw [update_document_status_reliable_db]
  unfold dbErrorMessage
  rw [find?_dbSetFirst_self st.db d _ (fun x => applyStatus_doc_id status tc (some m) x)]
  unfold docPresent at h
  obtain ⟨doc, hdoc⟩ := Option.isSome_iff_exists.mp h
  rw [hdoc]
  simp [applyStatus_error_message_some status tc m hm]

/-! ## State-effect lemmas for the remaining primitives -/

theorem ensure_collection_exists_state (n : String) (v : Nat) (st : PipeState) :
    (ensure_collection_exists n v st).db = st.db ∧
    (ensure_collection_exists n v st).progressLog = st.progressLog ∧
    (ensure_collection_exists n v st).reads = st.reads ∧
    (ensure_collection_exists n v st).nextPointId = st.nextPointId ∧
    (ensure_collection_exists n v st).nextTaskId = st.nextTaskId := by
  unfold ensure_collection_exists
  split <;> exact ⟨rfl, rfl, rfl, rfl, rfl⟩

theorem foldl_upsertBatch (coll : String) (bs : List (List QPoint)) :
    ∀ st : PipeState,
      bs.foldl (fun st b => { st with vectorOps := st.vectorOps ++ [QdrantOp.upsertBatch coll b] }) st =
        { st with vectorOps := st.vectorOps ++ bs.map (fun b => QdrantOp.upsertBatch coll b) } := by
  induction bs with
  | nil =>
    intro st
    simp
  | cons b rest ih =>
    intro st
    simp only [List.foldl_cons, List.map_cons]
    rw [ih]
    have : (st.vectorOps ++ [QdrantOp.upsertBatch coll b]) ++
        rest.map (fun b => QdrantOp.upsertBatch coll b) =
        st.vectorOps ++ (QdrantOp.upsertBatch coll b ::
          rest.map (fun b => QdrantOp.upsertBatch coll b)) := by
      simp
    rw [this]

theorem upsert_to_qdrant_side (coll docId : String) (cwm : List (Vec × ChunkMeta))
    (tenant : String) (st : PipeState) :
    (upsert_to_qdrant_with_metadata coll docId cwm tenant st).db = st.db ∧
    (upsert_to_qdrant_with_metadata coll docId cwm tenant st).progressLog = st.progressLog ∧
    (upsert_to_qdrant_with_metadata coll docId cwm tenant st).reads = st.reads ∧
    (upsert_to_qdrant_with_metadata coll docId cwm tenant st).nextTaskId = st.nextTaskId := by
  obtain ⟨h1, h2, h3, h4, h5⟩ := ensure_collection_exists_state coll (qdrantVecSize cwm) st
  simp only [upsert_to_qdrant_with_metadata, foldl_upsertBatch]
  exact ⟨h1, h2, h3, h5⟩

theorem upsert_to_qdrant_ops (coll docId : String) (cwm : List (Vec × ChunkMeta))
    (tenant : String) (st : PipeState) :
    (upsert_to_qdrant_with_metadata coll docId cwm tenant st).vectorOps =
      (ensure_collection_exists coll (qdrantVecSize cwm) st).vectorOps ++
        (batch100 (mkPoints docId tenant cwm st.nextPointId)).map
          (fun b => QdrantOp.upsertBatch coll b) := by
  obtain ⟨h1, h2, h3, h4, h5⟩ := ensure_collection_exists_state coll (qdrantVecSize cwm) st
  simp only [upsert_to_qdrant_with_metadata, foldl_upsertBatch, h4]

theorem batchAux_flatten (l : List QPoint) : ∀ (k : Nat) (acc : List QPoint),
    (batchAux l k acc).flatten = acc.reverse ++ l := by
  induction l with
  | nil =>
    intro k acc
    cases acc <;> simp [batchAux]
  | cons p rest ih =>
    intro k acc
    cases k with
    | zero => simp [batchAux, ih]
    | succ k => simp [batchAux, ih]

theorem batch100_join (l : List QPoint) : (batch100 l).flatten = l := by
  simpa using batchAux_flatten l 100 []

theorem batchAux_spec (l : List QPoint) : ∀ (k : Nat) (acc : List QPoint),
    batchAux l k acc =
      if acc.isEmpty && l.isEmpty then []
      else if l.length ≤ k then [acc.reverse ++ l]
      else (acc.reverse ++ l.take k) :: batchAux (l.drop k) 100 [] := by
  induction l with
  | nil =>
    intro k acc
    cases acc <;> simp [batchAux]
  | cons p rest ih =>
    intro k acc
    cases k with
    | zero =>
      show acc.reverse :: batchAux rest 99 [p] = _
      rw [if_neg (by simp), if_neg (by simp), List.take_zero, List.drop_zero,
        List.append_nil]
      show _ = acc.reverse :: batchAux rest 99 [p]
      rfl
    | succ k =>
      show batchAux rest k (p :: acc) = _
      rw [ih k (p :: acc)]
      rw [if_neg (by simp)]
      by_cases hk : rest.length ≤ k
      · rw [if_pos hk, if_neg (by simp), if_pos (show (p :: rest).length ≤ k + 1 by
          simp
          omega)]
        simp
      · rw [if_neg hk, if_neg (by simp), if_neg (show ¬ (p :: rest).length ≤ k + 1 by
          simp
          omega)]
        simp

theorem batch100_take_drop (l : List QPoint) (h : l ≠ []) :
    batch100 l = l.take 100 :: batch100 (l.drop 100) := by
  show batchAux l 100 [] = _
  rw [batchAux_spec l 100 []]
  rw [if_neg (by simp [h])]
  by_cases hl : l.length ≤ 100
  · rw [if_pos hl]
    rw [List.take_of_length_le hl, List.drop_eq_nil_of_le hl]
    simp [batch100, batchAux]
  · rw [if_neg hl]
    simp [batch100]

theorem mkPoints_ids (docId tenant : String) (cwm : List (Vec × ChunkMeta)) (id0 : Nat) :
    (mkPoints docId tenant cwm id0).map (fun p => p.id) = List.range' id0 cwm.length := by
  unfold mkPoints
  rw [List.map_map]
  have h : ((fun p : QPoint => p.id) ∘ fun kem : Nat × (Vec × ChunkMeta) =>
      QPoint.mk (id0 + kem.1) kem.2.1 ⟨tenant, docId, kem.2.2⟩) =
      (fun k => id0 + k) ∘ Prod.fst := rfl
  rw [h, ← List.map_map]
  rw [List.map_fst_zip _ _ (by simp)]
  rw [List.range'_eq_map_range]

/-! ## The shared stage `try`/`except` skeleton -/

theorem tryStage_error {α : Type} (s : SessionOracle) (d : String)
    (body : PipeState → Except PyErr α × PipeState) (st st' : PipeState) (e : PyErr)
    (h : tryStage s d body st = (.error e, st')) :
    ∃ stM, body st = (.error e, stM) ∧ st' = taskFailHandler s d e stM := by
  unfold tryStage at h
  cases hb : body st with
  | mk r stM =>
    rw [hb] at h
    cases r with
    | ok a => simp at h
    | error e' =>
      simp only [Prod.mk.injEq, Except.error.injEq] at h
      obtain ⟨rfl, h2⟩ := h
      exact ⟨stM, rfl, h2.symm⟩

theorem tryStage_ok {α : Type} (s : SessionOracle) (d : String)
    (body : PipeState → Except PyErr α × PipeState) (st st' : PipeState) (a : α)
    (h : tryStage s d body st = (.ok a, st')) : body st = (.ok a, st') := by
  unfold tryStage at h
  cases hb : body st with
  | mk r stM =>
    rw [hb] at h
    cases r with
    | ok a' =>
      simp only [Prod.mk.injEq, Except.ok.injEq] at h
      obtain ⟨rfl, rfl⟩ := h
      rfl
    | error e' => simp at h

theorem taskFailHandler_side (s : SessionOracle) (d : String) (e : PyErr) (st : PipeState) :
    (taskFailHandler s d e st).vectorOps = st.vectorOps ∧
    (taskFailHandler s d e st).reads = st.reads ∧
    (taskFailHandler s d e st).nextTaskId = st.nextTaskId ∧
    (taskFailHandler s d e st).progressLog =
      st.progressLog ++ [(d, ⟨0, "failed", some (errMsg e)⟩)] := by
  unfold taskFailHandler
  obtain ⟨p1, p2, p3, p4, p5, p6⟩ := update_document_status_side s d "failed" none
    (some (errMsg e)) (update_progress d 0 "failed" (some (errMsg e)) st)
  exact ⟨p2, p4, p6, p1⟩

theorem taskFailHandler_dbStatus (d : String) (e : PyErr) (st : PipeState)
    (h : docPresent st d) :
    dbStatus (taskFailHandler reliableSession d e st).db d = some "failed" :=
  dbStatus_update_reliable d "failed" none (some (errMsg e)) _ h

theorem taskFailHandler_errorMessage (d : String) (e : PyErr) (st : PipeState)
    (h : docPresent st d) (hm : errMsg e ≠ "") :
    dbErrorMessage (taskFailHandler reliableSession d e st).db d = some (some (errMsg e)) :=
  dbErrorMessage_update_reliable d "failed" none (errMsg e) hm _ h

theorem docPresent_taskFailHandler (s : SessionOracle) (k : String) (e : PyErr)
    (st : PipeState) (d : String) (h : docPresent st d) :
    docPresent (taskFailHandler s k e st) d :=
  docPresent_update_document_status s k "failed" none (some (errMsg e)) _ d h

/-! ## Claim C10 -/

/-- C10: `update_document_status` never propagates an exception: the
catch-all `except` is embedded in the total return type; when the session
raises (query or commit), the transaction is rolled back and the state is
returned unchanged (atomic on error, silent on failure), and when the
session succeeds the first matching row is updated by the setters
(`processing_status` always, `total_chunks` when not `None`,
`error_message` when truthy). -/
theorem update_document_status_total_and_atomic (s : SessionOracle) (d status : String)
    (tc : Option Nat) (em : Option String) (st : PipeState) :
    (s.queryFails = true ∨ (s.commitFails = true ∧ docPresent st d) →
      update_document_status s d status tc em st = st) ∧
    (s.queryFails = false → s.commitFails = false →
      update_document_status s d status tc em st =
        { st with db := dbSetFirst st.db d (applyStatus status tc em) }) := by
  constructor
  · intro hfail
    unfold update_document_status update_document_status_try
    rcases hfail with hq | ⟨hc, hp⟩
    · rw [hq]
      rfl
    · unfold docPresent at hp
      obtain ⟨doc, hdoc⟩ := Option.isSome_iff_exists.mp hp
      cases hq : s.queryFails with
      | true => rfl
      | false =>
        rw [hdoc, hc]
        rfl
  · intro hq hc
    unfold update_document_status update_document_status_try
    rw [hq]
    cases hdoc : st.db.find? (fun x => x.doc_id == d) with
    | some doc =>
      rw [hc]
      rfl
    | none =>
      rw [dbSetFirst_id_of_none st.db d _ hdoc]
      rfl

/-- C10 witness: with a failing commit the state is unchanged; with a
reliable session the row is updated. -/
theorem update_document_status_total_and_atomic_witness :
    update_document_status ⟨false, true⟩ "d1" "completed" (some 3) (some "oops") failedState =
      failedState ∧
    update_document_status reliableSession "d1" "completed" (some 3) (some "oops") failedState =
      { failedState with
          db := dbSetFirst failedState.db "d1" (applyStatus "completed" (some 3) (some "oops")) } :=
  ⟨(update_document_status_total_and_atomic ⟨false, true⟩ "d1" "completed" (some 3)
      (some "oops") failedState).1 (Or.inr ⟨rfl, by unfold docPresent; decide⟩),
   (update_document_status_total_and_atomic reliableSession "d1" "completed" (some 3)
      (some "oops") failedState).2 rfl rfl⟩

/-! ## Extraction loop characterization -/

theorem extract_text_with_ocr_fallback_state (fp : String) (i : Nat) (p : PyPage)
    (st : PipeState) :
    (extract_text_with_ocr_fallback fp i p st).2.db = st.db ∧
    (extract_text_with_ocr_fallback fp i p st).2.progressLog = st.progressLog ∧
    (extract_text_with_ocr_fallback fp i p st).2.vectorOps = st.vectorOps ∧
    (extract_text_with_ocr_fallback fp i p st).2.nextTaskId = st.nextTaskId := by
  unfold extract_text_with_ocr_fallback
  split
  · exact ⟨rfl, rfl, rfl, rfl⟩
  · split
    · split <;> exact ⟨rfl, rfl, rfl, rfl⟩
    · exact ⟨rfl, rfl, rfl, rfl⟩

theorem extractPagesLoop_state (fp docId : String) (total : Nat) (ps : List PyPage) :
    ∀ (i : Nat) (acc : List PageData) (st : PipeState),
      (extractPagesLoop fp docId total ps i acc st).2.db = st.db ∧
      (extractPagesLoop fp docId total ps i acc st).2.vectorOps = st.vectorOps ∧
      (extractPagesLoop fp docId total ps i acc st).2.nextTaskId = st.nextTaskId ∧
      (extractPagesLoop fp docId total ps i acc st).2.progressLog =
        st.progressLog ++ pageEntries docId total ps i := by
  induction ps with
  | nil =>
    intro i acc st
    simp [extractPagesLoop, pageEntries]
  | cons p rest ih =>
    intro i acc st
    obtain ⟨o1, o2, o3, o4⟩ := extract_text_with_ocr_fallback_state fp i p st
    obtain ⟨l1, l2, l3, l4⟩ := ih (i + 1)
      (if pyStrip (extract_text_with_ocr_fallback fp i p st).1.text ≠ [] then
        acc ++ [(extract_text_with_ocr_fallback fp i p st).1] else acc)
      (update_progress docId (10 + i * 15 / total) ("extracted_page_" ++ toString i) none
        (extract_text_with_ocr_fallback fp i p st).2)
    simp only [extractPagesLoop, pageEntries]
    refine ⟨?_, ?_, ?_, ?_⟩
    · rw [l1]; exact o1
    · rw [l2]; exact o3
    · rw [l3]; exact o4
    · rw [l4]
      simp only [update_progress]
      rw [o2, List.append_assoc]
      rfl

/-! ## Stage body characterizations -/

theorem update_progress_db (k : String) (pct : Nat) (stp : String) (er : Option String)
    (st : PipeState) : (update_progress k pct stp er st).db = st.db := rfl

theorem recordRead_db (p : String) (st : PipeState) : (recordRead p st).db = st.db := rfl

theorem update_progress_log (k : String) (pct : Nat) (stp : String) (er : Option String)
    (st : PipeState) :
    (update_progress k pct stp er st).progressLog = st.progressLog ++ [(k, ⟨pct, stp, er⟩)] :=
  rfl

theorem update_progress_vops (k : String) (pct : Nat) (stp : String) (er : Option String)
    (st : PipeState) : (update_progress k pct stp er st).vectorOps = st.vectorOps := rfl

theorem update_progress_taskId (k : String) (pct : Nat) (stp : String) (er : Option String)
    (st : PipeState) : (update_progress k pct stp er st).nextTaskId = st.nextTaskId := rfl

theorem recordRead_log (p : String) (st : PipeState) :
    (recordRead p st).progressLog = st.progressLog := rfl

theorem recordRead_vops (p : String) (st : PipeState) :
    (recordRead p st).vectorOps = st.vectorOps := rfl

theorem recordRead_taskId (p : String) (st : PipeState) :
    (recordRead p st).nextTaskId = st.nextTaskId := rfl

theorem chunk_task_body_state (fuel : Nat) (ex : ExtractResult) (cs ov : Nat)
    (st : PipeState) :
    (chunk_task_body fuel ex cs ov st).2.db = st.db ∧
    (chunk_task_body fuel ex cs ov st).2.vectorOps = st.vectorOps ∧
    (chunk_task_body fuel ex cs ov st).2.nextTaskId = st.nextTaskId := by
  simp only [chunk_task_body]
  split
  · exact ⟨rfl, rfl, rfl⟩
  · split <;> exact ⟨rfl, rfl, rfl⟩

theorem embed_task_body_state (client : EmbClient) (cr : ChunkResult) (st : PipeState) :
    (embed_task_body client cr st).2.db = st.db ∧
    (embed_task_body client cr st).2.vectorOps = st.vectorOps ∧
    (embed_task_body client cr st).2.nextTaskId = st.nextTaskId := by
  simp only [embed_task_body]
  split
  · exact ⟨rfl, rfl, rfl⟩
  · split <;> exact ⟨rfl, rfl, rfl⟩

theorem extract_task_body_docPresent (s : SessionOracle) (fs : String → Option (List PyPage))
    (tenant docId fp : String) (st : PipeState) (r : Except PyErr ExtractResult)
    (stM : PipeState) (h : extract_task_body s fs tenant docId fp st = (r, stM))
    (d : String) (hp : docPresent st d) : docPresent stM d := by
  have hp1 : docPresent (update_document_status s docId "processing" none none
      (update_progress docId 5 "starting" none st)) d :=
    docPresent_update_document_status s docId "processing" none none _ d hp
  simp only [extract_task_body] at h
  split at h
  · cases h; exact hp1
  · split at h
    · cases h; exact hp1
    next pages hpg =>
      have hdb := (extractPagesLoop_state fp docId pages.length pages 1
        [] (recordRead fp (update_progress docId 10 "extracting_text" none
          (update_document_status s docId "processing" none none
            (update_progress docId 5 "starting" none st))))).1
      split at h
      · cases h
        unfold docPresent at hp1 ⊢
        rw [hdb]
        exact hp1
      · cases h
        unfold docPresent at hp1 ⊢
        rw [update_progress_db, hdb]
        exact hp1

theorem upsert_task_body_docPresent (s : SessionOracle) (em : EmbedResult)
    (st : PipeState) (r : Except PyErr UpsertResult) (stM : PipeState)
    (h : upsert_task_body s em st = (r, stM)) (d : String) (hp : docPresent st d) :
    docPresent stM d := by
  simp only [upsert_task_body] at h
  split at h
  · cases h; exact hp
  · split at h
    · cases h; exact hp
    next doc hdoc =>
      cases h
      have hy : docPresent (update_progress em.document_id 90 "vectors_upserted" none
          (upsert_to_qdrant_with_metadata ("tenant_" ++ em.tenant_id) em.document_id
            (chunksWithMetadata em doc) em.tenant_id
            (update_progress em.document_id 80 "upserting_vectors" none st))) d := by
        unfold docPresent at hp ⊢
        rw [update_progress_db, (upsert_to_qdrant_side ("tenant_" ++ em.tenant_id)
          em.document_id (chunksWithMetadata em doc) em.tenant_id _).1,
          update_progress_db]
        exact hp
      have hz := docPresent_update_document_status s em.document_id "completed"
        (some em.chunks.length) none _ d hy
      unfold docPresent at hz ⊢
      rw [update_progress_db]
      exact hz

/-! ## Stage success characterizations -/

theorem extract_task_ok (s : SessionOracle) (fs : String → Option (List PyPage))
    (tenant docId fp : String) (st : PipeState) (ex : ExtractResult) (st' : PipeState)
    (h : extract_pdf_text_task s fs tenant docId fp st = (.ok ex, st')) :
    ex.tenant_id = tenant ∧ ex.document_id = docId ∧
    (∀ d, docPresent st d → docPresent st' d) ∧
    st'.vectorOps = st.vectorOps ∧ st'.nextTaskId = st.nextTaskId ∧
    ∃ pages, fs fp = some pages ∧
      st'.progressLog = st.progressLog ++
        ((docId, ⟨5, "starting", none⟩) :: (docId, ⟨10, "extracting_text", none⟩) ::
          (pageEntries docId pages.length pages 1 ++
            [(docId, ⟨25, "text_extracted", none⟩)])) := by
  have hb := tryStage_ok _ _ _ _ _ _ h
  have hpres : ∀ d, docPresent st d → docPresent st' d := fun d hd =>
    extract_task_body_docPresent s fs tenant docId fp st _ _ hb d hd
  simp only [extract_task_body] at hb
  split at hb
  · simp at hb
  · split at hb
    · simp at hb
    next pages hpg =>
      split at hb
      · simp at hb
      next hne =>
        simp only [Prod.mk.injEq, Except.ok.injEq] at hb
        obtain ⟨hex, hst⟩ := hb
        subst hst
        refine ⟨by rw [← hex], by rw [← hex], hpres, ?_, ?_, pages, hpg, ?_⟩
        · rw [update_progress_vops,
            (extractPagesLoop_state fp docId pages.length pages 1 [] _).2.1,
            recordRead_vops, update_progress_vops]
          exact (update_document_status_side s docId "processing" none none _).2.1
        · rw [update_progress_taskId,
            (extractPagesLoop_state fp docId pages.length pages 1 [] _).2.2.1,
            recordRead_taskId, update_progress_taskId]
          exact (update_document_status_side s docId "processing" none none _).2.2.2.2.2
        · rw [update_progress_log,
            (extractPagesLoop_state fp docId pages.length pages 1 [] _).2.2.2,
            recordRead_log, update_progress_log,
            (update_document_status_side s docId "processing" none none _).1,
            update_progress_log]
          simp [List.append_assoc]

theorem chunk_task_ok (s : SessionOracle) (fuel : Nat) (ex : ExtractResult)
    (cs ov : Nat) (st : PipeState) (ch : ChunkResult) (st' : PipeState)
    (h : chunk_text_task s fuel ex cs ov st = (.ok ch, st')) :
    ch.tenant_id = ex.tenant_id ∧ ch.document_id = ex.document_id ∧
    st'.db = st.db ∧ st'.vectorOps = st.vectorOps ∧ st'.nextTaskId = st.nextTaskId ∧
    st'.progressLog = st.progressLog ++
      [(ex.document_id, ⟨30, "chunking_text", none⟩),
       (ex.document_id, ⟨40, "storing_chunks", none⟩),
       (ex.document_id, ⟨50, "chunks_stored", none⟩)] := by
  have hb := tryStage_ok _ _ _ _ _ _ h
  simp only [chunk_task_body] at hb
  split at hb
  · simp at hb
  · split at hb
    · simp at hb
    · simp only [Prod.mk.injEq, Except.ok.injEq] at hb
      obtain ⟨hch, hst⟩ := hb
      subst hst
      refine ⟨by rw [← hch], by rw [← hch], rfl, rfl, rfl, ?_⟩
      simp only [update_progress_log]
      simp [List.append_assoc]

theorem embed_task_ok (s : SessionOracle) (client : EmbClient) (ch : ChunkResult)
    (st : PipeState) (em : EmbedResult) (st' : PipeState)
    (h : generate_embeddings_task s client ch st = (.ok em, st')) :
    em.tenant_id = ch.tenant_id ∧ em.document_id = ch.document_id ∧
    st'.db = st.db ∧ st'.vectorOps = st.vectorOps ∧ st'.nextTaskId = st.nextTaskId ∧
    st'.progressLog = st.progressLog ++
      [(ch.document_id, ⟨55, "generating_embeddings", none⟩),
       (ch.document_id, ⟨75, "embeddings_generated", none⟩)] := by
  have hb := tryStage_ok _ _ _ _ _ _ h
  simp only [embed_task_body] at hb
  split at hb
  · simp at hb
  · split at hb
    · simp at hb
    · simp only [Prod.mk.injEq, Except.ok.injEq] at hb
      obtain ⟨hem, hst⟩ := hb
      subst hst
      refine ⟨by rw [← hem], by rw [← hem], rfl, rfl, rfl, ?_⟩
      simp only [update_progress_log]
      simp [List.append_assoc]

theorem upsert_task_ok (s : SessionOracle) (em : EmbedResult) (st : PipeState)
    (r : UpsertResult) (st' : PipeState)
    (h : upsert_vectors_task s em st = (.ok r, st')) :
    st'.nextTaskId = st.nextTaskId ∧
    st'.progressLog = st.progressLog ++
      [(em.document_id, ⟨80, "upserting_vectors", none⟩),
       (em.document_id, ⟨90, "vectors_upserted", none⟩),
       (em.document_id, ⟨100, "completed", none⟩)] := by
  have hb := tryStage_ok _ _ _ _ _ _ h
  simp only [upsert_task_body] at hb
  split at hb
  · simp at hb
  · split at hb
    · simp at hb
    next doc hdoc =>
      simp only [Prod.mk.injEq, Except.ok.injEq] at hb
      obtain ⟨hr, hst⟩ := hb
      subst hst
      constructor
      · rw [update_progress_taskId,
          (update_document_status_side s em.document_id "completed"
            (some em.chunks.length) none _).2.2.2.2.2,
          update_progress_taskId,
          (upsert_to_qdrant_side ("tenant_" ++ em.tenant_id) em.document_id
            (chunksWithMetadata em doc) em.tenant_id _).2.2.2,
          update_progress_taskId]
      · rw [update_progress_log,
          (update_document_status_side s em.document_id "completed"
            (some em.chunks.length) none _).1,
          update_progress_log,
          (upsert_to_qdrant_side ("tenant_" ++ em.tenant_id) em.document_id
            (chunksWithMetadata em doc) em.tenant_id _).2.1,
          update_progress_log]
        simp [List.append_assoc]

/-! ## Claim C4 -/

/-- C4 (counterexample): a stage exception whose `str` is empty (here the
embedding backend raising with an empty message) sets the status to
`failed` and the progress record to `{0, "failed", ""}`, but the error
message is NOT persisted in `error_message` — the truthiness guard
`if error_message:` in `update_document_status` skips empty strings, so the
column stays `None`, contrary to the claim that the message is persisted
for every stage failure. -/
theorem stage_failure_empty_message_cex :
    emptyMsgRun.1 = .error (.clientError "") ∧
    dbStatus emptyMsgRun.2.db "d1" = some "failed" ∧
    dbErrorMessage emptyMsgRun.2.db "d1" = some none ∧
    emptyMsgRun.2.progressLog.getLast? = some ("d1", ⟨0, "failed", some ""⟩) := by
  refine ⟨by decide, by decide, by decide, by decide⟩

/-- C4 (amended): every stage failure of the chain converges on one
behavior: the document's `processing_status` is persisted as `failed`, the
progress record is set to `{percent: 0, step: "failed", error: str(e)}`,
and the error message is persisted in `error_message` whenever it is
non-empty (the status helper's truthiness guard drops empty messages). -/
theorem stage_failure_converges (fs : String → Option (List PyPage)) (client : EmbClient)
    (fuel : Nat) (tenant docId fp : String) (st : PipeState) (e : PyErr) (st' : PipeState)
    (h : runChain reliableSession fs client fuel tenant docId fp st = (.error e, st'))
    (hp : docPresent st docId) :
    dbStatus st'.db docId = some "failed" ∧
    st'.progressLog.getLast? = some (docId, ⟨0, "failed", some (errMsg e)⟩) ∧
    (errMsg e ≠ "" → dbErrorMessage st'.db docId = some (some (errMsg e))) := by
  unfold runChain at h
  split at h
  next e1 st1 hex =>
    simp only [Prod.mk.injEq, Except.error.injEq] at h
    obtain ⟨rfl, rfl⟩ := h
    obtain ⟨stM, hbody, rfl⟩ := tryStage_error _ _ _ _ _ _ hex
    have hpM := extract_task_body_docPresent _ _ _ _ _ _ _ _ hbody docId hp
    exact ⟨taskFailHandler_dbStatus docId e1 stM hpM,
      by rw [(taskFailHandler_side _ _ _ _).2.2.2]; exact List.getLast?_concat _,
      fun hm => taskFailHandler_errorMessage docId e1 stM hpM hm⟩
  next ex st1 hex =>
    obtain ⟨hten, hdid, hpres1, -, -, -⟩ := extract_task_ok _ _ _ _ _ _ _ _ hex
    split at h
    next e2 st2 hch =>
      simp only [Prod.mk.injEq, Except.error.injEq] at h
      obtain ⟨rfl, rfl⟩ := h
      obtain ⟨stM, hbody, rfl⟩ := tryStage_error _ _ _ _ _ _ hch
      have h2 : (chunk_task_body fuel ex 500 75 st1).2 = stM := by rw [hbody]
      have hpM : docPresent stM docId := by
        unfold docPresent
        rw [← h2, (chunk_task_body_state fuel ex 500 75 st1).1]
        exact hpres1 docId hp
      rw [hdid]
      exact ⟨taskFailHandler_dbStatus docId e2 stM hpM,
        by rw [(taskFailHandler_side _ _ _ _).2.2.2]; exact List.getLast?_concat _,
        fun hm => taskFailHandler_errorMessage docId e2 stM hpM hm⟩
    next ch st2 hch =>
      obtain ⟨-, hdid2, hdb2, -, -, -⟩ := chunk_task_ok _ _ _ _ _ _ _ _ hch
      have hpres2 : docPresent st2 docId := by
        unfold docPresent
        rw [hdb2]
        exact hpres1 docId hp
      split at h
      next e3 st3 hem =>
        simp only [Prod.mk.injEq, Except.error.injEq] at h
        obtain ⟨rfl, rfl⟩ := h
        obtain ⟨stM, hbody, rfl⟩ := tryStage_error _ _ _ _ _ _ hem
        have h2 : (embed_task_body client ch st2).2 = stM := by rw [hbody]
        have hpM : docPresent stM docId := by
          unfold docPresent
          rw [← h2, (embed_task_body_state client ch st2).1]
          exact hpres2
        rw [hdid2, hdid]
        exact ⟨taskFailHandler_dbStatus docId e3 stM hpM,
          by rw [(taskFailHandler_side _ _ _ _).2.2.2]; exact List.getLast?_concat _,
          fun hm => taskFailHandler_errorMessage docId e3 stM hpM hm⟩
      next em st3 hem =>
        obtain ⟨-, hdid3, hdb3, -, -, -⟩ := embed_task_ok _ _ _ _ _ _ hem
        have hpres3 : docPresent st3 docId := by
          unfold docPresent
          rw [hdb3]
          exact hpres2
        obtain ⟨stM, hbody, rfl⟩ := tryStage_error _ _ _ _ _ _ h
        have hpM : docPresent stM docId :=
          upsert_task_body_docPresent _ _ _ _ _ hbody docId hpres3
        rw [hdid3, hdid2, hdid]
        exact ⟨taskFailHandler_dbStatus docId e stM hpM,
          by rw [(taskFailHandler_side _ _ _ _).2.2.2]; exact List.getLast?_concat _,
          fun hm => taskFailHandler_errorMessage docId e stM hpM hm⟩

/-- C4 witness: a missing file fails the extraction stage with a non-empty
message; status, error message and progress record all converge as the
amended claim states. -/
theorem stage_failure_converges_witness :
    dbStatus missingRun.2.db "d1" = some "failed" ∧
    missingRun.2.progressLog.getLast? =
      some ("d1", ⟨0, "failed",
        some (errMsg (.fileNotFoundError "File not found: ./uploads/t1/missing.pdf"))⟩) ∧
    (errMsg (PyErr.fileNotFoundError "File not found: ./uploads/t1/missing.pdf") ≠ "" →
      dbErrorMessage missingRun.2.db "d1" =
        some (some (errMsg (.fileNotFoundError "File not found: ./uploads/t1/missing.pdf")))) :=
  stage_failure_converges demoFs okClient 100 "t1" "d1" "./uploads/t1/missing.pdf"
    demoState (.fileNotFoundError "File not found: ./uploads/t1/missing.pdf") missingRun.2
    (Prod.ext (by decide) rfl) (by unfold docPresent; decide)

/-! ## Claim C3 -/

/-- C3: if the embedding client returns a list whose length differs from
the number of input chunks, the orchestrator's re-validation fails the rest
of the pipeline with the count-mismatch `ValueError`,
`Document.processing_status` is persisted as `failed`, and no vector-index
operation is issued for that run. -/
theorem embedding_count_mismatch_fails (client : EmbClient) (cr : ChunkResult)
    (st : PipeState) (vecs : List Vec)
    (hc : client (cr.chunks.map (fun c => c.text)) = .ok vecs)
    (hlen : vecs.length ≠ cr.chunks.length)
    (hp : docPresent st cr.document_id) :
    ∃ st', runEmbedUpsert reliableSession client cr st =
        (.error (.valueError ("Embedding count mismatch: " ++ toString vecs.length
          ++ " != " ++ toString cr.chunks.length)), st') ∧
      dbStatus st'.db cr.document_id = some "failed" ∧
      st'.vectorOps = st.vectorOps := by
  have hbody : embed_task_body client cr st =
      (.error (.valueError ("Embedding count mismatch: " ++ toString vecs.length
        ++ " != " ++ toString cr.chunks.length)),
        update_progress cr.document_id 55 "generating_embeddings" none st) := by
    simp only [embed_task_body, hc]
    rw [if_pos hlen]
  have htask : generate_embeddings_task reliableSession client cr st =
      (.error (.valueError ("Embedding count mismatch: " ++ toString vecs.length
        ++ " != " ++ toString cr.chunks.length)),
        taskFailHandler reliableSession cr.document_id
          (.valueError ("Embedding count mismatch: " ++ toString vecs.length
            ++ " != " ++ toString cr.chunks.length))
          (update_progress cr.document_id 55 "generating_embeddings" none st)) := by
    unfold generate_embeddings_task tryStage
    rw [hbody]
  refine ⟨taskFailHandler reliableSession cr.document_id
      (.valueError ("Embedding count mismatch: " ++ toString vecs.length
        ++ " != " ++ toString cr.chunks.length))
      (update_progress cr.document_id 55 "generating_embeddings" none st), ?_, ?_, ?_⟩
  · unfold runEmbedUpsert
    rw [htask]
  · apply taskFailHandler_dbStatus
    unfold docPresent
    rw [update_progress_db]
    exact hp
  · rw [(taskFailHandler_side _ _ _ _).1, update_progress_vops]

/-- C3 witness: a 10-chunk batch embedded by a backend returning 9 vectors
fails with the count-mismatch fault; the document ends `failed` and no
vector operation is issued. -/
theorem embedding_count_mismatch_fails_witness :
    ∃ st', runEmbedUpsert reliableSession nineClient tenChunkResult demoState =
        (.error (.valueError "Embedding count mismatch: 9 != 10"), st') ∧
      dbStatus st'.db "d1" = some "failed" ∧
      st'.vectorOps = demoState.vectorOps :=
  embedding_count_mismatch_fails nineClient tenChunkResult demoState
    (List.replicate 9 [0]) (by decide) (by decide) (by unfold docPresent; decide)

/-! ## Claim C6 -/

/-- C6: the claim says `chunk_with_smart_boundaries` is total for every
text and every `0 < overlap < chunk_size`.  It is not: on `hangText` with
`chunk_size = 60`, `overlap = 55` the window is cut at the space at index
55 and the next window start is `55 - 55 = 0` again, so the loop state
repeats forever and no iteration bound suffices — the source loop never
returns. -/
theorem chunker_nonterminating :
    ∀ fuel : Nat, chunk_with_smart_boundaries hangText 60 55 fuel = none := by
  have key : ∀ f : Nat, chunkTraceF hangText 60 55 0 f = none := by
    intro f
    induction f with
    | zero => decide
    | succ n ih =>
      have hstep : chunkStep hangText 60 55 0 = (some ⟨List.replicate 55 'x', 0, 55⟩, 0) := by
        decide
      simp only [chunkTraceF, hstep, ih]
      decide
  intro fuel
  unfold chunk_with_smart_boundaries
  rw [key fuel]
  rfl

/-! ## Claim C7 -/

/-- C7 (counterexample): the claim's context-preservation invariant
`chunk[i].char_end − overlap ≤ chunk[i+1].char_start ≤ chunk[i].char_end`
fails for adjacent kept chunks when a window in between is discarded: on
`dropText` with `chunk_size = 60`, `overlap = 9` the returned list is
`[(0, 60), (102, 162)]` and `102 ≤ 60` is false. -/
theorem chunk_overlap_invariant_cex :
    chunk_with_smart_boundaries dropText 60 9 5 =
      some [⟨List.replicate 51 'a', 0, 60⟩, ⟨List.replicate 51 'b', 102, 162⟩] ∧
    ¬ ((⟨List.replicate 51 'b', 102, 162⟩ : RawChunk).char_start ≤
        (⟨List.replicate 51 'a', 0, 60⟩ : RawChunk).char_end) := by
  constructor
  · decide
  · decide

/-- C7 (amended): for chunks kept by two consecutive loop iterations (no
discarded window between them), the next chunk's `char_start` is exactly
the previous chunk's `char_end − overlap`, hence
`char_end − overlap ≤ char_start' ≤ char_end`; the returned chunk list is
the trace with the discarded windows removed. -/
theorem chunk_overlap_invariant_consecutive (text : List Char) (cs ov fuel : Nat)
    (tr : List (Option RawChunk)) (i : Nat) (c c' : RawChunk)
    (htr : chunkTraceF text cs ov 0 fuel = some tr)
    (h1 : tr.get? i = some (some c)) (h2 : tr.get? (i + 1) = some (some c')) :
    chunk_with_smart_boundaries text cs ov fuel = some tr.reduceOption ∧
      c'.char_start = c.char_end - (ov : Int) ∧
      c.char_end - (ov : Int) ≤ c'.char_start ∧ c'.char_start ≤ c.char_end := by
  have hadj := chunkTraceF_adjacent text cs ov fuel 0 tr i c c' htr h1 h2
  refine ⟨?_, hadj, le_of_eq hadj.symm, ?_⟩
  · unfold chunk_with_smart_boundaries
    rw [htr]
    rfl
  · rw [hadj]
    omega

/-- C7 witness: on 120 `a`s with `chunk_size = 60`, `overlap = 9`, the
first two windows both keep their chunks and satisfy the amended
invariant. -/
theorem chunk_overlap_invariant_consecutive_witness :
    chunk_with_smart_boundaries twoWinText 60 9 5 = some twoWinTrace.reduceOption ∧
      (⟨List.replicate 60 'a', 51, 111⟩ : RawChunk).char_start =
        (⟨List.replicate 60 'a', 0, 60⟩ : RawChunk).char_end - ((9 : Nat) : Int) ∧
      (⟨List.replicate 60 'a', 0, 60⟩ : RawChunk).char_end - ((9 : Nat) : Int) ≤
        (⟨List.replicate 60 'a', 51, 111⟩ : RawChunk).char_start ∧
      (⟨List.replicate 60 'a', 51, 111⟩ : RawChunk).char_start ≤
        (⟨List.replicate 60 'a', 0, 60⟩ : RawChunk).char_end :=
  chunk_overlap_invariant_consecutive twoWinText 60 9 5 twoWinTrace 0
    ⟨List.replicate 60 'a', 0, 60⟩ ⟨List.replicate 60 'a', 51, 111⟩
    (by decide) (by decide) (by decide)

/-! ## Claim C8 -/

/-- C8 (counterexample): the claim says a window with no qualifying
terminator is cut "at the nearest plain space before the window end".  On
`spaceText` the first window's only space is at the window start (index 0):
the claim's rule cuts at 0, but the source requires `space > start` and
cuts at the raw boundary 60 instead, keeping a chunk that ends at 60. -/
theorem cut_rule_claim_cex :
    chunk_with_smart_boundaries spaceText 60 9 5 = some [⟨List.replicate 59 'a', 0, 60⟩] ∧
      specCutClaim spaceText 60 0 = 0 ∧
      computeEnd spaceText 60 0 = ((60 : Nat) : Int) ∧
      computeEnd spaceText 60 0 ≠ ((specCutClaim spaceText 60 0 : Nat) : Int) := by
  refine ⟨by decide, by decide, by decide, by decide⟩

/-- C8 (amended): for every window at a non-negative start, the source's
cut position (`computeEnd`) equals the claim's backward-search cut rule,
amended so that the fallback space must lie strictly after the window
start; windows reaching past the end of the text are cut at the raw
boundary by both. -/
theorem cut_rule_refines_spec (text : List Char) (chunk_size start : Nat) :
    computeEnd text chunk_size (start : Int) = ((specCut text chunk_size start : Nat) : Int) :=
  computeEnd_eq_specCut text chunk_size start

/-! ## Retry lemmas (C5) -/

theorem find?_id_and_tenant (db : List Document) (key tenant : String) (doc : Document)
    (ht : doc.tenant_id = tenant) :
    ∀ (h1 : db.find? (fun x => x.doc_id == key) = some doc),
      db.find? (fun x => x.doc_id == key && x.tenant_id == tenant) = some doc := by
  induction db with
  | nil =>
    intro h1
    cases h1
  | cons x rest ih =>
    intro h1
    simp only [List.find?_cons] at h1 ⊢
    cases hk : x.doc_id == key with
    | true =>
      rw [hk] at h1
      injection h1 with hx
      subst hx
      have hcond : (true && x.tenant_id == tenant) = true := by
        rw [ht]
        simp
      rw [hcond]
    | false =>
      rw [hk] at h1
      have hcond : (false && x.tenant_id == tenant) = false := by
        simp
      rw [hcond]
      exact ih h1

theorem retry_endpoint_on_failed (tenant docId : String) (st : PipeState) (doc : Document)
    (h : st.db.find? (fun d => d.doc_id == docId && d.tenant_id == tenant) = some doc)
    (hf : doc.processing_status = "failed") :
    retry_failed_document tenant docId st =
      (.ok ⟨docId, "pending", st.nextTaskId, "Document queued for retry"⟩,
        { st with db := dbSetFirst st.db docId resetRow,
                  nextTaskId := st.nextTaskId + 1 }) := by
  unfold retry_failed_document
  simp only [h]
  rw [if_neg (show ¬ doc.processing_status ≠ "failed" from fun hc => hc hf)]
  rfl

theorem retry_task_on_pending (tenant docId : String) (st : PipeState) (doc : Document)
    (n : Nat)
    (h : st.db.find? (fun d => d.doc_id == docId && d.tenant_id == tenant) = some doc)
    (hp : doc.processing_status = "pending") (hn : st.nextTaskId = n) :
    retry_failed_document_task reliableSession tenant docId st =
      (.ok ⟨docId, n, "queued"⟩,
        { update_progress docId 0 "retrying" none
            (update_document_status reliableSession docId "pending" none none st) with
          nextTaskId := n + 1 }) := by
  unfold retry_failed_document_task
  rw [if_neg (show ¬ (reliableSession.queryFails = true) from by decide)]
  simp only [h]
  rw [if_neg (show ¬ (doc.processing_status ≠ "failed" ∧ doc.processing_status ≠ "pending")
    from fun hc => hc.2 hp)]
  simp only [allocTaskId]
  rw [update_progress_taskId,
    (update_document_status_side reliableSession docId "pending" none none st).2.2.2.2.2, hn]

/-! ## Progress-percent lemmas (C9) -/

theorem pageEntries_percent_lb (docId : String) (total : Nat) :
    ∀ (ps : List PyPage) (i : Nat) (y : Nat),
      y ∈ percentsOf (pageEntries docId total ps i) → 10 + i * 15 / total ≤ y := by
  intro ps
  induction ps with
  | nil =>
    intro i y hy
    simp [pageEntries, percentsOf] at hy
  | cons p rest ih =>
    intro i y hy
    simp only [pageEntries, percentsOf, List.map_cons, List.mem_cons] at hy
    cases hy with
    | inl h => exact le_of_eq h.symm
    | inr h =>
      have hrec := ih (i + 1) y h
      have hmono : i * 15 / total ≤ (i + 1) * 15 / total :=
        Nat.div_le_div_right (Nat.mul_le_mul_right 15 (Nat.le_succ i))
      omega

theorem pageEntries_percent_ub (docId : String) (total : Nat) :
    ∀ (ps : List PyPage) (i : Nat), i + ps.length ≤ total + 1 →
      ∀ y ∈ percentsOf (pageEntries docId total ps i), y ≤ 25 := by
  intro ps
  induction ps with
  | nil =>
    intro i hi y hy
    simp [pageEntries, percentsOf] at hy
  | cons p rest ih =>
    intro i hi y hy
    simp only [List.length_cons] at hi
    simp only [pageEntries, percentsOf, List.map_cons, List.mem_cons] at hy
    cases hy with
    | inl h =>
      have hi' : i ≤ total := by omega
      have h1 : i * 15 ≤ total * 15 := Nat.mul_le_mul_right 15 hi'
      have h2 : i * 15 / total ≤ total * 15 / total := Nat.div_le_div_right h1
      have h3 : total * 15 / total ≤ 15 := by
        cases total with
        | zero => simp
        | succ t => exact Nat.le_of_eq (Nat.mul_div_cancel_left 15 (Nat.succ_pos t))
      omega
    | inr h => exact ih (i + 1) (by omega) y h

theorem pageEntries_pairwise (docId : String) (total : Nat) :
    ∀ (ps : List PyPage) (i : Nat),
      List.Pairwise (fun a b => a ≤ b) (percentsOf (pageEntries docId total ps i)) := by
  intro ps
  induction ps with
  | nil =>
    intro i
    simp [pageEntries, percentsOf]
  | cons p rest ih =>
    intro i
    simp only [pageEntries, percentsOf, List.map_cons, List.pairwise_cons]
    refine ⟨?_, ih (i + 1)⟩
    intro y hy
    have hlb := pageEntries_percent_lb docId total rest (i + 1) y hy
    have hmono : i * 15 / total ≤ (i + 1) * 15 / total :=
      Nat.div_le_div_right (Nat.mul_le_mul_right 15 (Nat.le_succ i))
    omega

theorem getLast?_append_big : ∀ (l : List Nat) (x : Nat) (t : List Nat),
    (l ++ (x :: t)).getLast? = (x :: t).getLast? := by
  intro l
  induction l with
  | nil =>
    intro x t
    rfl
  | cons a l ih =>
    intro x t
    rw [List.cons_append]
    cases hl : l ++ x :: t with
    | nil => exact absurd hl (by simp)
    | cons b u =>
      rw [List.getLast?_cons_cons, ← hl, ih x t]

/-! ## Claim C1 -/

/-- C1: the claim says a file path outside the tenant's prefix — including
one escaping only after resolution — fails with a PermissionError before
any file bytes are read.  On `travPath = "./uploads/t1/../t2/doc.pdf"` for
tenant `t1`: after resolution the path does not reside under the tenant's
prefix, yet the source's lexical `startswith` check accepts it, the
extraction stage reads the file's bytes and returns the extracted text
instead of raising. -/
theorem extract_reads_traversal_path :
    residesUnder (pyJoin UPLOAD_DIR "t1") travPath = false ∧
    pyStartswith (pyJoin UPLOAD_DIR "t1") travPath = true ∧
    (extract_pdf_text_task reliableSession travFs "t1" "d1" travPath travState).2.reads =
      [travPath] ∧
    (extract_pdf_text_task reliableSession travFs "t1" "d1" travPath travState).1 =
      .ok ⟨"t1", "d1", [⟨1, List.replicate 60 'a', "text_extraction"⟩], 1, 60⟩ := by
  refine ⟨by decide, by decide, by decide, by decide⟩

/-! ## Claim C2 -/

/-- C2 (counterexample): the claim says reprocessing first deletes the
document's prior points by document id, then re-upserts.  Re-running the
full chain on `reprocessState` — whose index already holds `priorPoint`
for the document — completes, issues no delete at all, and leaves the
prior point in place next to the newly upserted one. -/
theorem reprocess_no_delete_cex :
    reprocessRun.1 = .ok ⟨"t1", "d1", "completed", 1, 1⟩ ∧
    reprocessRun.2.vectorOps.filter isDeleteOp = [] ∧
    reprocessRun.2.vectorOps =
      [.upsertBatch "tenant_t1" [priorPoint],
       .upsertBatch "tenant_t1" [⟨1, priorPoint.vector, priorPoint.payload⟩]] := by
  refine ⟨by decide, by decide, by decide⟩

/-- C2 (amended): the write stage never deletes and never updates a point
in place — every run of `upsert_to_qdrant_with_metadata` appends only
non-delete operations to the vector-index trace, its batches upsert
exactly one new point per chunk, and those points carry freshly generated
ids (`uuid.uuid4()`, modelled by the fresh counter) never used before. -/
theorem upsert_fresh_points_no_delete (coll docId tenant : String)
    (cwm : List (Vec × ChunkMeta)) (st : PipeState) :
    ((upsert_to_qdrant_with_metadata coll docId cwm tenant st).vectorOps.drop
        st.vectorOps.length).all (fun op => !isDeleteOp op) = true ∧
    (batch100 (mkPoints docId tenant cwm st.nextPointId)).flatten =
      mkPoints docId tenant cwm st.nextPointId ∧
    (mkPoints docId tenant cwm st.nextPointId).map (fun p => p.id) =
      List.range' st.nextPointId cwm.length := by
  refine ⟨?_, batch100_join _, mkPoints_ids _ _ _ _⟩
  rw [upsert_to_qdrant_ops]
  unfold ensure_collection_exists
  split
  · rw [List.drop_left]
    simp [List.all_eq_true, isDeleteOp]
  · simp only [List.append_assoc]
    rw [List.drop_left]
    simp [List.all_eq_true, isDeleteOp]

/-! ## Claim C5 -/

/-- C5: the retry operation is permitted only from `processing_status =
"failed"`.  For a document row found by the endpoint's query: in any other
status the endpoint rejects with HTTP 400 and changes nothing; from
`failed` the end-to-end retry flow succeeds, leaves the row `pending` with
the error message cleared, and queues a fresh pipeline run whose task id is
distinct from every previously allocated id (in particular the original
run's). -/
theorem retry_semantics (tenant docId : String) (st : PipeState) (doc : Document)
    (originalId : Nat)
    (h1 : st.db.find? (fun d => d.doc_id == docId) = some doc)
    (ht : doc.tenant_id = tenant)
    (horig : originalId < st.nextTaskId) :
    (doc.processing_status ≠ "failed" →
      retryFlow reliableSession tenant docId st =
        (.error (.httpException 400 ("Cannot retry document in '" ++
          doc.processing_status ++ "' status")), st)) ∧
    (doc.processing_status = "failed" →
      ∃ st' : PipeState,
        retryFlow reliableSession tenant docId st =
          (.ok (.ok ⟨docId, st.nextTaskId + 1, "queued"⟩), st') ∧
        dbStatus st'.db docId = some "pending" ∧
        dbErrorMessage st'.db docId = some none ∧
        st.nextTaskId + 1 ≠ originalId) := by
  have hcomb := find?_id_and_tenant st.db docId tenant doc ht h1
  constructor
  · intro hne
    have hend : retry_failed_document tenant docId st =
        (.error (.httpException 400 ("Cannot retry document in '" ++
          doc.processing_status ++ "' status")), st) := by
      unfold retry_failed_document
      simp only [hcomb]
      rw [if_pos hne]
    unfold retryFlow
    simp only [hend]
  · intro hfail
    have hend := retry_endpoint_on_failed tenant docId st doc hcomb hfail
    have h2 : (dbSetFirst st.db docId resetRow).find? (fun d => d.doc_id == docId) =
        some (resetRow doc) := by
      rw [find?_dbSetFirst_self st.db docId resetRow (fun x => rfl), h1]
      rfl
    have h3 := find?_id_and_tenant (dbSetFirst st.db docId resetRow) docId tenant
      (resetRow doc) ht h2
    have htask := retry_task_on_pending tenant docId
      { st with db := dbSetFirst st.db docId resetRow, nextTaskId := st.nextTaskId + 1 }
      (resetRow doc) (st.nextTaskId + 1) h3 rfl rfl
    have hpres2 : docPresent
        { st with db := dbSetFirst st.db docId resetRow, nextTaskId := st.nextTaskId + 1 }
        docId := by
      show ((dbSetFirst st.db docId resetRow).find? (fun d => d.doc_id == docId)).isSome = true
      rw [h2]
      rfl
    refine ⟨{ update_progress docId 0 "retrying" none
        (update_document_status reliableSession docId "pending" none none
          { st with db := dbSetFirst st.db docId resetRow,
                    nextTaskId := st.nextTaskId + 1 }) with
        nextTaskId := st.nextTaskId + 1 + 1 }, ?_, ?_, ?_, ?_⟩
    · unfold retryFlow
      simp only [hend]
      simp only [htask]
    · exact dbStatus_update_reliable docId "pending" none none
        { st with db := dbSetFirst st.db docId resetRow, nextTaskId := st.nextTaskId + 1 }
        hpres2
    · show dbErrorMessage (update_document_status reliableSession docId "pending" none none
          { st with db := dbSetFirst st.db docId resetRow,
                    nextTaskId := st.nextTaskId + 1 }).db docId = some none
      rw [update_document_status_reliable_db]
      unfold dbErrorMessage
      rw [find?_dbSetFirst_self _ docId _ (fun x => applyStatus_doc_id "pending" none none x)]
      show (((dbSetFirst st.db docId resetRow).find? (fun d => d.doc_id == docId)).map
        (applyStatus "pending" none none)).map (fun d => d.error_message) = some none
      rw [h2]
      rfl
    · omega

/-- C5 (witness): on the concrete completed document the retry endpoint
rejects with HTTP 400, and on the concrete failed document the retry flow
succeeds with a fresh task id, leaving the row pending with no error
message. -/
theorem retry_semantics_witness :
    (retryFlow reliableSession "t1" "d1" completedState =
      (.error (.httpException 400 ("Cannot retry document in '" ++
        completedDoc.processing_status ++ "' status")), completedState)) ∧
    (∃ st' : PipeState,
      retryFlow reliableSession "t1" "d1" failedState =
        (.ok (.ok ⟨"d1", failedState.nextTaskId + 1, "queued"⟩), st') ∧
      dbStatus st'.db "d1" = some "pending" ∧
      dbErrorMessage st'.db "d1" = some none ∧
      failedState.nextTaskId + 1 ≠ 3) :=
  ⟨(retry_semantics "t1" "d1" completedState completedDoc 3 (by decide) (by decide)
      (by decide)).1 (by decide),
   (retry_semantics "t1" "d1" failedState failedDoc 3 (by decide) (by decide)
      (by decide)).2 (by decide)⟩

/-! ## Claim C9 -/

/-- C9: for any successful run of the four-stage chain, the sequence of
percent values the run appends to the progress store is non-decreasing and
ends at 100. -/
theorem progress_monotone_and_completes (s : SessionOracle)
    (fs : String → Option (List PyPage)) (client : EmbClient) (fuel : Nat)
    (tenant docId path : String) (st : PipeState) (r : UpsertResult) (st' : PipeState)
    (h : runChain s fs client fuel tenant docId path st = (.ok r, st')) :
    List.Chain' (fun a b => a ≤ b)
      (percentsOf (newEntries st.progressLog st'.progressLog)) ∧
    (percentsOf (newEntries st.progressLog st'.progressLog)).getLast? = some 100 := by
  unfold runChain at h
  split at h
  next e1 st1 hex => simp at h
  next ex st1 hex =>
    split at h
    next e2 st2 hch => simp at h
    next ch st2 hch =>
      split at h
      next e3 st3 hem => simp at h
      next em st3 hem =>
        obtain ⟨-, -, -, -, -, pages, hpg, hlog1⟩ :=
          extract_task_ok s fs tenant docId path st ex st1 hex
        obtain ⟨-, -, -, -, -, hlog2⟩ := chunk_task_ok s fuel ex 500 75 st1 ch st2 hch
        obtain ⟨-, -, -, -, -, hlog3⟩ := embed_task_ok s client ch st2 em st3 hem
        obtain ⟨-, hlog4⟩ := upsert_task_ok s em st3 r st' h
        have hperc : percentsOf (newEntries st.progressLog st'.progressLog) =
            5 :: 10 :: (percentsOf (pageEntries docId pages.length pages 1) ++
              [25, 30, 40, 50, 55, 75, 80, 90, 100]) := by
          unfold newEntries
          rw [hlog4, hlog3, hlog2, hlog1]
          simp [percentsOf, List.append_assoc]
        have hT : ∀ y ∈ [25, 30, 40, 50, 55, 75, 80, 90, 100], 25 ≤ y := by decide
        constructor
        · rw [hperc]
          apply List.Pairwise.chain'
          refine List.pairwise_cons.mpr ⟨?_, List.pairwise_cons.mpr ⟨?_, ?_⟩⟩
          · intro y hy
            rcases List.mem_cons.mp hy with rfl | hy2
            · omega
            rcases List.mem_append.mp hy2 with hyP | hyT
            · have hlb := pageEntries_percent_lb docId pages.length pages 1 y hyP
              have h10 : 10 ≤ y := le_trans (Nat.le_add_right 10 _) hlb
              omega
            · have := hT y hyT
              omega
          · intro y hy
            rcases List.mem_append.mp hy with hyP | hyT
            · have hlb := pageEntries_percent_lb docId pages.length pages 1 y hyP
              exact le_trans (Nat.le_add_right 10 _) hlb
            · have := hT y hyT
              omega
          · refine List.pairwise_append.mpr
              ⟨pageEntries_pairwise docId pages.length pages 1, by decide, ?_⟩
            intro x hx y hy
            have hx25 := pageEntries_percent_ub docId pages.length pages 1 (by omega) x hx
            have hy25 := hT y hy
            omega
        · rw [hperc]
          show ((5 :: 10 :: percentsOf (pageEntries docId pages.length pages 1)) ++
            (25 :: [30, 40, 50, 55, 75, 80, 90, 100])).getLast? = some 100
          rw [getLast?_append_big]
          rfl

/-- C9 (witness): the percent sequence of the concrete successful demo run
is non-decreasing and ends at 100. -/
theorem progress_monotone_and_completes_witness :
    List.Chain' (fun a b => a ≤ b) (percentsOf (newEntries demoState.progressLog
      (runChain reliableSession demoFs okClient 100 "t1" "d1" "./uploads/t1/doc.pdf"
        demoState).2.progressLog)) ∧
    (percentsOf (newEntries demoState.progressLog
      (runChain reliableSession demoFs okClient 100 "t1" "d1" "./uploads/t1/doc.pdf"
        demoState).2.progressLog)).getLast? = some 100 :=
  progress_monotone_and_completes reliableSession demoFs okClient 100 "t1" "d1"
    "./uploads/t1/doc.pdf" demoState ⟨"t1", "d1", "completed", 1, 1⟩
    (runChain reliableSession demoFs okClient 100 "t1" "d1" "./uploads/t1/doc.pdf"
      demoState).2 (Prod.ext (by decide) rfl)

end Ingest
